import Mathlib

/-!
Verification development for the metabolical-backend feed-ingestion pipeline.

The Python sources under `src/` are shallowly embedded below.  Text is
modelled as `List Char`; Python floats (scores, similarity ratios) are
modelled as exact rationals `ℚ`; Python exceptions are modelled with
`Except`/outcome inductives; Python dict/set state is modelled with
association lists / membership lists.  Each definition carries a comment
pointing to the source lines it translates.
-/

set_option maxRecDepth 4000

unseal Rat.mul Rat.inv Rat.add Rat.sub

namespace Metabolical

/-- Shorthand: the character list of a string literal. -/
def cs (s : String) : List Char := s.toList

/-- Python whitespace (`str.split`, `str.strip`, regex `\s` — ASCII range). -/
def wsChar (c : Char) : Bool :=
  c = ' ' ∨ c = '\t' ∨ c = '\n' ∨ c = '\r' ∨ c.toNat = 11 ∨ c.toNat = 12

/-- Python regex `\w` (ASCII range): letters, digits, underscore. -/
def wordChar (c : Char) : Bool :=
  c.isAlpha ∨ c.isDigit ∨ c = '_'

/-- The `str.lower()` (ASCII). -/
def toLowerL (l : List Char) : List Char := l.map Char.toLower

/-- The `leadsWith n h`: the list `h` starts with `n`. -/
def leadsWith : List Char → List Char → Bool
  | [], _ => true
  | _ :: _, [] => false
  | a :: as, b :: bs => a = b && leadsWith as bs

/-- Python `needle in haystack` (substring containment). -/
def hasSub (n : List Char) : List Char → Bool
  | [] => leadsWith n []
  | c :: t => if leadsWith n (c :: t) then true else hasSub n t

/-- The `str.strip()`: drop leading and trailing whitespace. -/
def stripWs (l : List Char) : List Char :=
  ((l.dropWhile wsChar).reverse.dropWhile wsChar).reverse

/-- Worker for `splitWs`, accumulating the current word in reverse. -/
def splitWsGo : List Char → List Char → List (List Char)
  | acc, [] => if acc.isEmpty then [] else [acc.reverse]
  | acc, c :: t =>
    if wsChar c then
      if acc.isEmpty then splitWsGo [] t else acc.reverse :: splitWsGo [] t
    else splitWsGo (c :: acc) t

/-- Python `str.split()` with no argument: split on whitespace runs, no empties. -/
def splitWs (l : List Char) : List (List Char) := splitWsGo [] l

/-- Worker for `collapseWs`; the flag records whether the previous kept
character came from a whitespace run. -/
def collapseWsGo : Bool → List Char → List Char
  | _, [] => []
  | prevWs, c :: t =>
    if wsChar c then
      if prevWs then collapseWsGo true t else ' ' :: collapseWsGo true t
    else c :: collapseWsGo false t

/-- The `re.sub(r'\s+', ' ', s)`: collapse each whitespace run to a single space. -/
def collapseWs (l : List Char) : List Char := collapseWsGo false l

/-- Fuel-driven worker for `replaceAll`; the fuel starts at the haystack length
and each step consumes at least one haystack character, so it never runs out. -/
def replaceAllGo (pat repl : List Char) : Nat → List Char → List Char
  | _, [] => []
  | 0, hay => hay
  | Nat.succ f, c :: t =>
    if pat ≠ [] ∧ leadsWith pat (c :: t) then
      repl ++ replaceAllGo pat repl f ((c :: t).drop pat.length)
    else c :: replaceAllGo pat repl f t

/-- Python `str.replace(pat, repl)`: left-to-right, non-overlapping. -/
def replaceAll (pat repl hay : List Char) : List Char :=
  replaceAllGo pat repl hay.length hay

example : replaceAll (cs "ab") (cs "x") (cs "zababy") = cs "zxxy" := by decide
example : hasSub (cs "who") (cs "a whole") = true := by decide
example : splitWs (cs "  a bb  c ") = [cs "a", cs "bb", cs "c"] := by decide
example : stripWs (cs "  ab c  ") = cs "ab c" := by decide
example : collapseWs (cs "a  b   c") = cs "a b c" := by decide

/-!
Section: `difflib.SequenceMatcher` (used by `ArticleDeduplicator.calculate_similarity`)

`SequenceMatcher(None, a, b).ratio()` returns `2*M/(len(a)+len(b))` where `M`
is the total size of the matching blocks found by recursively taking the
longest matching block (`k` maximal, then `i` minimal, then `j` minimal) and
recursing on the pieces to its left and right.  The autojunk heuristic only
kicks in for `len(b) >= 200` and is not modelled.  The recursion is driven by
fuel that starts at `len(a)+len(b)+1`; every recursive call is on strictly
smaller ranges, so the fuel never runs out.
-/

/-- Length of the common prefix of two lists, capped at the first argument. -/
def cappedPre : Nat → List Char → List Char → Nat
  | 0, _, _ => 0
  | _ + 1, [], _ => 0
  | _ + 1, _ :: _, [] => 0
  | cap + 1, a :: as, b :: bs => if a = b then cappedPre cap as bs + 1 else 0

/-- Size of the matching block of `a`, `b` starting at positions `i`, `j`,
staying below the range bounds `ahi`, `bhi`. -/
def lmCandidate (a b : List Char) (ahi bhi i j : Nat) : Nat :=
  cappedPre (min (ahi - i) (bhi - j)) (a.drop i) (b.drop j)

/-- Do positions `i` of `a` and `j` of `b` hold the same character?
(`find_longest_match` only walks the positions `j ∈ b2j[a[i]]`; all other
pairs have a zero-length block and can never improve the strict maximum.) -/
def headEq (a b : List Char) (i j : Nat) : Bool :=
  match (a.drop i).head?, (b.drop j).head? with
  | some x, some y => x = y
  | _, _ => false

/-- One candidate step of `find_longest_match`: a strictly longer block
replaces the best (so ties keep the earliest `i`, then earliest `j`). -/
def lmStep (a b : List Char) (ahi bhi i : Nat) (best : Nat × Nat × Nat)
    (j : Nat) : Nat × Nat × Nat :=
  if headEq a b i j then
    let k := lmCandidate a b ahi bhi i j
    if best.2.2 < k then (i, j, k) else best
  else best

/-- The `find_longest_match(alo, ahi, blo, bhi)` without junk: the block with `k`
maximal, ties broken by minimal `i`, then minimal `j`. -/
def longestMatch (a b : List Char) (alo ahi blo bhi : Nat) : Nat × Nat × Nat :=
  (List.range' alo (ahi - alo)).foldl
    (fun best i => (List.range' blo (bhi - blo)).foldl (lmStep a b ahi bhi i) best)
    (alo, blo, 0)

/-- Total matched size over the range `[alo, ahi) × [blo, bhi)`:
longest block plus recursion left and right of it. -/
def smTotalGo (a b : List Char) : Nat → Nat → Nat → Nat → Nat → Nat
  | 0, _, _, _, _ => 0
  | fuel + 1, alo, ahi, blo, bhi =>
    let r := longestMatch a b alo ahi blo bhi
    if r.2.2 = 0 then 0
    else
      smTotalGo a b fuel alo r.1 blo r.2.1 + r.2.2 +
        smTotalGo a b fuel (r.1 + r.2.2) ahi (r.2.1 + r.2.2) bhi

/-- Total size of all matching blocks of `a` and `b`. -/
def smTotal (a b : List Char) : Nat :=
  smTotalGo a b (a.length + b.length + 1) 0 a.length 0 b.length

/-- The `SequenceMatcher(None, a, b).ratio()`; `_calculate_ratio` returns `1.0`
when both sequences are empty. -/
def smScore (a b : List Char) : ℚ :=
  if a.length + b.length = 0 then 1
  else 2 * (smTotal a b : ℚ) / ((a.length : ℚ) + (b.length : ℚ))

/-- The `ArticleDeduplicator.calculate_similarity` (metabolic_filter.py:249-251):
the ratio of the two lower-cased strings. -/
def calculateSimilarity (t1 t2 : List Char) : ℚ :=
  smScore (toLowerL t1) (toLowerL t2)

example : smScore (cs "abcdefgh") (cs "abcdwxyz") = 1/2 := by decide
example : smScore (cs "abc") (cs "abc") = 1 := by decide

/-!
Section: `ArticleDeduplicator` (metabolic_filter.py:241-321)
-/

/-- An article as seen by the deduplicator: the `title` / `url` / `summary`
entries of the article dict (`article.get(..., '')`). -/
structure DArticle where
  title : List Char
  url : List Char
  summary : List Char
deriving DecidableEq, Repr

/-- The `ArticleDeduplicator.similarity_threshold`: the constructor default `0.85`,
used by the module-level `article_deduplicator` instance. -/
def similarityThreshold : ℚ := 85 / 100

/-- The `ArticleDeduplicator.normalize_title` (metabolic_filter.py:253-258):
lower-case, delete punctuation (`re.sub(r'[^\w\s]', '', ...)`), and collapse
whitespace via `' '.join(normalized.split())`. -/
def normalizeTitleDedup (title : List Char) : List Char :=
  let kept := (toLowerL title).filter (fun c => wordChar c ∨ wsChar c)
  List.intercalate (cs " ") (splitWs kept)

/-- The `ArticleDeduplicator.are_duplicates` (metabolic_filter.py:260-286). -/
def areDuplicates (a1 a2 : DArticle) : Bool :=
  let t1 := normalizeTitleDedup a1.title
  let t2 := normalizeTitleDedup a2.title
  let titleSimilarity := calculateSimilarity t1 t2
  if similarityThreshold ≤ titleSimilarity then true
  else if a1.url ≠ [] ∧ a2.url ≠ [] ∧ a1.url = a2.url then true
  else if a1.summary ≠ [] ∧ a2.summary ≠ [] ∧
      (9 / 10 : ℚ) ≤ calculateSimilarity a1.summary a2.summary then true
  else false

/-- The loop state of `deduplicate_articles`: the `deduplicated` list and the
`seen_titles` / `seen_urls` sets (modelled as membership lists). -/
structure DedupState where
  dedup : List DArticle
  seenTitles : List (List Char)
  seenUrls : List (List Char)
deriving Repr

/-- One iteration of the `for article in articles` loop of
`deduplicate_articles` (metabolic_filter.py:297-318). -/
def dedupStep (st : DedupState) (a : DArticle) : DedupState :=
  let t := normalizeTitleDedup a.title
  if t ∈ st.seenTitles ∨ (a.url ≠ [] ∧ a.url ∈ st.seenUrls) then st
  else if st.dedup.any (fun e => areDuplicates a e) then st
  else
    ⟨st.dedup ++ [a], st.seenTitles ++ [t],
      st.seenUrls ++ (if a.url ≠ [] then [a.url] else [])⟩

/-- The `ArticleDeduplicator.deduplicate_articles` (metabolic_filter.py:288-321). -/
def deduplicateArticles (articles : List DArticle) : List DArticle :=
  (articles.foldl dedupStep ⟨[], [], []⟩).dedup

example :
    deduplicateArticles
      [⟨cs "A Story!", cs "http://a", []⟩, ⟨cs "a story", cs "http://b", []⟩,
        ⟨cs "Other news item", cs "http://a", []⟩] =
      [⟨cs "A Story!", cs "http://a", []⟩] := by decide

/-!
Section: `EnhancedHealthScraper._normalize_title` and `_is_duplicate_fast`
(scraper.py:1079-1104 and 816-829)
-/

/-- The `prefixes_to_remove` list of `_normalize_title` (scraper.py:1094-1097).
Every entry contains a colon. -/
def boilerHeadList : List (List Char) :=
  [cs "new study:", cs "study:", cs "research:", cs "scientists:",
    cs "researchers:", cs "breaking:", cs "news:", cs "alert:", cs "update:"]

/-- The `EnhancedHealthScraper._normalize_title` (scraper.py:1079-1104):
lower-case and strip, replace punctuation by spaces
(`re.sub(r'[^\w\s]', ' ', ...)`), collapse whitespace, then try to remove one
leading boilerplate marker (loop with `break`). -/
def normalizeTitleScraper (title : List Char) : List Char :=
  if title = [] then []
  else
    let n1 := stripWs (toLowerL title)
    let n2 := n1.map (fun c => if wordChar c ∨ wsChar c then c else ' ')
    let n3 := stripWs (collapseWs n2)
    match boilerHeadList.find? (fun p => leadsWith p n3) with
    | some p => stripWs (n3.drop p.length)
    | none => n3

/-- The `EnhancedHealthScraper._is_duplicate_fast` (scraper.py:816-829).
The `md5(...).hexdigest()` fingerprints are modelled as the strings
themselves (an injective-hash abstraction): the hash sets
`existing_url_hashes` / `existing_title_hashes` store the fingerprinted
strings. -/
def isDuplicateFast (urlHashes titleHashes : List (List Char))
    (url title : List Char) : Bool :=
  if url ∈ urlHashes then true
  else if normalizeTitleScraper title ∈ titleHashes then true
  else false

/-- The `EnhancedHealthScraper._add_to_duplicate_cache` (scraper.py:831-838). -/
def addToDuplicateCache (urlHashes titleHashes : List (List Char))
    (url title : List Char) : List (List Char) × List (List Char) :=
  (urlHashes ++ [url], titleHashes ++ [normalizeTitleScraper title])

example : normalizeTitleScraper (cs "Breaking: Foo, bar!") = cs "breaking foo bar" := by decide

/-!
Section: `FeedValidator` blacklist state (scraper.py:348-457)

The second `class FeedValidator` (scraper.py:348) shadows the first one
(scraper.py:293); `EnhancedHealthScraper.__init__` (scraper.py:585)
instantiates the second.  Its `__init__` (scraper.py:349-362) sets
`blacklist_file`, `blacklist_data`, `rate_limiter`, `config`, … but never
`config_data`; the model records that as `configData = none`, and reading it
raises `AttributeError`.
-/

/-- The Python exceptions that can occur in the modelled code. -/
inductive PyErr
  | attributeError
  | typeError
  | valueError
deriving DecidableEq, Repr

/-- A stored `retry_after` string as classified by
`datetime.fromisoformat(retry_after.replace('Z', '+00:00'))`:
`unparseable` raises `ValueError`; `naive t` is a plain ISO timestamp
(no offset) parsing to a naive datetime with value `t` (seconds);
`utc t` is an ISO timestamp ending in `Z` — the format written by
`add_to_blacklist` (`isoformat() + 'Z'`) — parsing to an aware datetime. -/
inductive TimeStr
  | unparseable
  | naive (t : Int)
  | utc (t : Int)
deriving DecidableEq, Repr

/-- One entry of `blacklist_data['blacklisted_feeds']`; `retryAfter = none`
models a missing/None `retry_after` key.  The `timestamp` and `status_code`
fields never influence control flow and are omitted. -/
structure BlEntry where
  url : List Char
  reason : List Char
  retryAfter : Option TimeStr
deriving DecidableEq, Repr

/-- A parsed datetime: seconds value plus awareness flag. -/
structure PyTime where
  t : Int
  aware : Bool
deriving DecidableEq, Repr

/-- The `datetime.fromisoformat(retry_after.replace('Z', '+00:00'))`. -/
def parseISO : TimeStr → Except PyErr PyTime
  | .unparseable => .error .valueError
  | .naive t => .ok ⟨t, false⟩
  | .utc t => .ok ⟨t, true⟩

/-- The `datetime.now() < retry_time`: `datetime.now()` is offset-naive, and
Python raises `TypeError` when comparing naive and aware datetimes. -/
def ltNow (now : Int) (rt : PyTime) : Except PyErr Bool :=
  if rt.aware then .error .typeError else .ok (decide (now < rt.t))

/-- The attribute state of a (second) `FeedValidator` object. -/
structure VState where
  configData : Option (List BlEntry)
  blacklist : List BlEntry
deriving DecidableEq, Repr

/-- A freshly constructed validator (scraper.py:349-362): `blacklist_data`
is loaded, `config_data` is never assigned. -/
def mkValidator (bl : List BlEntry) : VState := ⟨none, bl⟩

/-- The `FeedValidator._remove_from_blacklist` (scraper.py:402-414).  Its first
statement reads `self.config_data`, an attribute the second class never
sets, so on a normally-constructed validator it raises `AttributeError`
before performing any mutation. -/
def removeFromBlacklist (st : VState) (url : List Char) : Except PyErr VState :=
  match st.configData with
  | none => .error .attributeError
  | some cd =>
    .ok
      { configData := some (cd.filter (fun f => f.url ≠ url)),
        blacklist := st.blacklist.filter (fun f => f.url ≠ url) }

/-- The `try:` body inside `is_blacklisted` (scraper.py:389-396): parse the
stored time, compare against `datetime.now()`, and on expiry remove the
entry and report non-blacklisted.  The returned message strings are
abstracted (the reason rather than the formatted text). -/
def isBlacklistedTry (now : Int) (st : VState) (url : List Char) (ts : TimeStr)
    (reason : List Char) : Except PyErr ((Bool × Option (List Char)) × VState) := do
  let rt ← parseISO ts
  let lt ← ltNow now rt
  if lt then
    pure ((true, some reason), st)
  else do
    let st1 ← removeFromBlacklist st url
    pure ((false, some (cs "Retry time reached, attempting again")), st1)

/-- The `FeedValidator.is_blacklisted` (scraper.py:383-400).  Any exception in
the `try` body is swallowed (`except Exception: pass`) and control falls
through to `return True, feed['reason']`. -/
def isBlacklisted (now : Int) (st : VState) (url : List Char) :
    (Bool × Option (List Char)) × VState :=
  match st.blacklist.find? (fun f => f.url = url) with
  | none => ((false, none), st)
  | some feed =>
    match feed.retryAfter with
    | none => ((true, some feed.reason), st)
    | some ts =>
      match isBlacklistedTry now st url ts feed.reason with
      | .ok r => r
      | .error _ => ((true, some feed.reason), st)

/-- Does `status_code` satisfy `status_code and 500 <= status_code < 600`? -/
def statusIs5xx : Option Int → Bool
  | some s => s ≠ 0 ∧ 500 ≤ s ∧ s < 600
  | none => false

/-- The `retry_after - now` delta chosen by `add_to_blacklist`
(scraper.py:418-431), in seconds. -/
def retryDelta (status : Option Int) : Int :=
  if status = some 404 ∨ status = some 410 then 30 * 86400
  else if status = some 429 then 12 * 3600
  else if statusIs5xx status then 6 * 3600
  else 6 * 3600

/-- The `FeedValidator.add_to_blacklist` (scraper.py:416-457): compute the new
entry, call `_remove_from_blacklist` (scraper.py:442), then append the entry
to both config stores.  On a normally-constructed validator the removal
raises `AttributeError`, which propagates before any mutation, leaving the
blacklist unchanged.  The stored `retry_after` is `isoformat() + 'Z'`, which
later re-parses as an aware (utc) datetime. -/
def addToBlacklist (now : Int) (st : VState) (url reason : List Char)
    (status : Option Int) : Except PyErr VState := do
  let entry : BlEntry := ⟨url, reason, some (.utc (now + retryDelta status))⟩
  let st1 ← removeFromBlacklist st url
  .ok
    { configData := st1.configData.map (· ++ [entry]),
      blacklist := st1.blacklist ++ [entry] }

/-!
Section: `RateLimiter.wait_if_needed` (scraper.py:266-291)
-/

/-- The possible outcomes of a `wait_if_needed` call. -/
inductive LimiterOutcome
  | returns (requests : List ℚ)
  | blocksForever
  | indexError
deriving DecidableEq, Repr

/-- The `RateLimiter.wait_if_needed` (scraper.py:273-291) for one domain.
`lockHeld` records whether the calling thread already holds `self.lock`;
`threading.Lock` is not reentrant, so acquiring it again (`with self.lock`)
blocks forever (`blocksForever`).  `reqs` is `self.requests[domain]`, `now`
is `time.time()`.  The recursive call on line 288 happens inside the `with`
block, i.e. with the lock still held; `indexError` models
`self.requests[domain][0]` on an empty list (reachable only for
`limit = 0`). -/
def waitIfNeeded (lockHeld : Bool) (reqs : List ℚ) (now : ℚ) (limit : Nat) :
    LimiterOutcome :=
  if lockHeld then .blocksForever
  else
    let reqs1 := reqs.filter (fun t => now - 60 < t)
    if limit ≤ reqs1.length then
      match reqs1.head? with
      | none => .indexError
      | some t0 =>
        let wait := 60 - (now - t0)
        if 0 < wait then waitIfNeeded true reqs1 (now + wait) limit
        else .returns (reqs1 ++ [now])
    else .returns (reqs1 ++ [now])
termination_by (if lockHeld then 0 else 1)
decreasing_by simp_all

/-!
Section: `BackgroundScheduler` (scheduler.py:33-358)
-/

/-- One `active_jobs` entry: the job `type` and start time (the `thread`
handle is not modelled). -/
structure Job where
  jtype : List Char
  started : Int
deriving DecidableEq, Repr

/-- The scheduler state relevant to job tracking: the `active_jobs` dict in
insertion order. -/
structure SchedState where
  activeJobs : List (List Char × Job)
deriving DecidableEq, Repr

/-- Python dict assignment `d[k] = v`: replace in place or append. -/
def dictInsert (k : List Char) (v : Job) :
    List (List Char × Job) → List (List Char × Job)
  | [] => [(k, v)]
  | (k1, v1) :: rest =>
    if k1 = k then (k1, v) :: rest else (k1, v1) :: dictInsert k v rest

/-- The `BackgroundScheduler._run_quick_scrape_async` (scheduler.py:118-140):
build `job_id = f"quick_scrape_{timestamp}"`, start a worker thread
unconditionally, and record the job.  No check against already-running
quick scrapes is made. -/
def runQuickScrapeAsync (st : SchedState) (timestamp : List Char) (now : Int) :
    SchedState :=
  ⟨dictInsert (cs "quick_scrape_" ++ timestamp) ⟨cs "quick", now⟩ st.activeJobs⟩

/-- The `BackgroundScheduler._run_full_scrape_async` (scheduler.py:94-116). -/
def runFullScrapeAsync (st : SchedState) (timestamp : List Char) (now : Int) :
    SchedState :=
  ⟨dictInsert (cs "full_scrape_" ++ timestamp) ⟨cs "full", now⟩ st.activeJobs⟩

/-- The `BackgroundScheduler.trigger_manual_scrape` (scheduler.py:341-355). -/
def triggerManualScrape (st : SchedState) (scrapeType timestamp : List Char)
    (now : Int) : List Char × SchedState :=
  if scrapeType = cs "full" ∨ scrapeType = cs "comprehensive" then
    (cs "Full comprehensive scrape triggered with parallel processing",
      runFullScrapeAsync st timestamp now)
  else
    (cs "Quick scrape triggered with parallel processing",
      runQuickScrapeAsync st timestamp now)

/-- The number of active runs of a given type visible in `get_status`
(scheduler.py:320-339): the `active_jobs` entries whose `type` matches. -/
def activeOfType (st : SchedState) (t : List Char) : Nat :=
  (st.activeJobs.filter (fun kv => kv.2.jtype = t)).length

/-!
Section: `HealthCategorizer` (categorizer.py)

`_get_frontend_mappings` (categorizer.py:44-238), transcribed in declaration
order.  Dict iteration order in Python is insertion order, so the list order
below is the taxonomy declaration order used for tie-breaking.
-/

/-- The `news` subcategories (categorizer.py:48-75). -/
def taxNews : List (String × List (List Char)) :=
  [("latest",
    [cs "breaking", cs "recent", cs "new study", cs "latest research",
      cs "update", cs "announced", cs "report", cs "findings", cs "discovers",
      cs "reveals", cs "breakthrough", cs "development", cs "alert",
      cs "warning", cs "today"]),
   ("policy and regulation",
    [cs "health policy", cs "healthcare policy", cs "medical policy",
      cs "public health policy", cs "government health", cs "health regulation",
      cs "medical regulation", cs "healthcare regulation", cs "health law",
      cs "medical law", cs "healthcare law", cs "policy", cs "regulation",
      cs "fda approval", cs "drug approval", cs "medical approval",
      cs "clinical guidelines", cs "health standards", cs "medical standards",
      cs "healthcare standards", cs "health ministry", cs "health department",
      cs "public health department", cs "government scheme",
      cs "medical establishment", cs "hospital registration",
      cs "health surveillance", cs "vaccination policy",
      cs "immunization policy"]),
   ("govt schemes",
    [cs "government scheme", cs "govt scheme", cs "ayushman bharat",
      cs "pradhan mantri", cs "cghs", cs "health scheme",
      cs "public health scheme", cs "national health", cs "health insurance",
      cs "jan arogya", cs "health card", cs "beneficiary",
      cs "government health program", cs "state health scheme"]),
   ("international",
    [cs "international", cs "global", cs "world health", cs "who",
      cs "global health", cs "pandemic", cs "epidemic", cs "united nations",
      cs "unicef", cs "worldwide", cs "cross-border", cs "global study",
      cs "international research"])]

/-- The `diseases` subcategories (categorizer.py:78-129). -/
def taxDiseases : List (String × List (List Char)) :=
  [("diabetes",
    [cs "diabetes", cs "diabetic", cs "blood sugar", cs "glucose",
      cs "insulin", cs "type 1 diabetes", cs "type 2 diabetes",
      cs "gestational diabetes", cs "hyperglycemia", cs "hypoglycemia",
      cs "prediabetes", cs "glycemic"]),
   ("obesity",
    [cs "obesity", cs "overweight", cs "weight", cs "bmi",
      cs "body mass index", cs "weight management", cs "adipose", cs "fat",
      cs "bariatric", cs "weight loss"]),
   ("inflammation",
    [cs "inflammation", cs "inflammatory", cs "immune", cs "cytokine",
      cs "autoimmune", cs "arthritis", cs "rheumatoid", cs "lupus",
      cs "inflammatory bowel", cs "crohn"]),
   ("cardiovascular",
    [cs "cardiovascular", cs "heart", cs "cardiac", cs "heart disease",
      cs "blood pressure", cs "hypertension", cs "cholesterol", cs "coronary",
      cs "artery", cs "stroke", cs "heart attack", cs "angina",
      cs "atrial fibrillation"]),
   ("liver",
    [cs "liver", cs "hepatic", cs "fatty liver", cs "nafld",
      cs "liver function", cs "hepatitis", cs "cirrhosis", cs "liver disease",
      cs "liver enzymes"]),
   ("kidney",
    [cs "kidney", cs "renal", cs "dialysis", cs "kidney disease",
      cs "nephrology", cs "chronic kidney", cs "kidney failure",
      cs "glomerular"]),
   ("thyroid",
    [cs "thyroid", cs "hypothyroid", cs "hyperthyroid", cs "thyroid gland",
      cs "thyroid hormone", cs "tsh", cs "thyroxine", cs "goiter",
      cs "thyroiditis"]),
   ("metabolic",
    [cs "metabolic", cs "metabolism", cs "metabolic syndrome", cs "energy",
      cs "biochemical", cs "metabolic disorder", cs "endocrine",
      cs "hormone"]),
   ("sleep disorders",
    [cs "sleep disorder", cs "insomnia", cs "sleep apnea", cs "narcolepsy",
      cs "restless leg", cs "circadian rhythm", cs "sleep quality",
      cs "sleep study"]),
   ("skin",
    [cs "skin", cs "dermatology", cs "dermatitis", cs "acne", cs "eczema",
      cs "psoriasis", cs "melanoma", cs "skin cancer", cs "rash",
      cs "dermatologist"]),
   ("eyes and ears",
    [cs "eyes", cs "vision", cs "hearing", cs "ear", cs "ophthalmology",
      cs "optical", cs "auditory", cs "glaucoma", cs "cataract", cs "retina",
      cs "tinnitus", cs "deaf"]),
   ("reproductive health",
    [cs "reproductive", cs "fertility", cs "pregnancy", cs "maternal",
      cs "gynecology", cs "obstetrics", cs "contraception", cs "menstrual",
      cs "ovarian", cs "uterine"])]

/-- The `solutions` subcategories (categorizer.py:132-153). -/
def taxSolutions : List (String × List (List Char)) :=
  [("nutrition",
    [cs "nutrition", cs "diet", cs "food", cs "nutritional", cs "dietary",
      cs "nutrient", cs "vitamin", cs "mineral", cs "supplement", cs "eating",
      cs "meal", cs "calorie"]),
   ("fitness",
    [cs "fitness", cs "exercise", cs "workout", cs "training",
      cs "physical activity", cs "gym", cs "sports", cs "running",
      cs "cycling", cs "swimming", cs "strength"]),
   ("lifestyle",
    [cs "lifestyle", cs "life style", cs "health habits", cs "daily routine",
      cs "behavior", cs "habit", cs "routine", cs "lifestyle change"]),
   ("wellness",
    [cs "wellness", cs "wellbeing", cs "health", cs "self care",
      cs "mindfulness", cs "meditation", cs "stress management",
      cs "work life balance"]),
   ("prevention",
    [cs "prevention", cs "preventive", cs "screening", cs "early detection",
      cs "preventive care", cs "immunization", cs "vaccination",
      cs "checkup"])]

/-- The `food` subcategories (categorizer.py:156-177). -/
def taxFood : List (String × List (List Char)) :=
  [("natural food",
    [cs "natural food", cs "whole food", cs "unprocessed", cs "farm fresh",
      cs "natural", cs "raw food", cs "fresh produce", cs "farm to table"]),
   ("organic food",
    [cs "organic", cs "organic food", cs "pesticide free", cs "chemical free",
      cs "organic farming", cs "certified organic", cs "organic produce"]),
   ("processed food",
    [cs "processed food", cs "ultra processed", cs "packaged food",
      cs "artificial", cs "preservatives", cs "additives", cs "fast food",
      cs "junk food"]),
   ("fish and seafood",
    [cs "fish", cs "seafood", cs "omega", cs "marine", cs "salmon", cs "tuna",
      cs "shellfish", cs "seafood safety", cs "fish oil", cs "aquaculture"]),
   ("food safety",
    [cs "food safety", cs "foodborne", cs "contamination", cs "food hygiene",
      cs "food poisoning", cs "salmonella", cs "e coli", cs "food recall"])]

/-- The `audience` subcategories (categorizer.py:180-209). -/
def taxAudience : List (String × List (List Char)) :=
  [("women",
    [cs "women", cs "female", cs "woman", cs "maternal", cs "pregnancy",
      cs "menopause", cs "gynecology", cs "breast", cs "cervical",
      cs "ovarian"]),
   ("men",
    [cs "men", cs "male", cs "man", cs "prostate", cs "testosterone",
      cs "masculine", cs "paternal", cs "erectile", cs "sperm"]),
   ("children",
    [cs "children", cs "pediatric", cs "kids", cs "child", cs "infant",
      cs "toddler", cs "preschool", cs "childhood", cs "baby"]),
   ("teenagers",
    [cs "teenager", cs "adolescent", cs "teen", cs "young adult",
      cs "puberty", cs "teenage", cs "adolescence", cs "high school"]),
   ("seniors",
    [cs "senior", cs "elderly", cs "geriatric", cs "aging", cs "old age",
      cs "retirement", cs "aged", cs "older adult"]),
   ("athletes",
    [cs "athlete", cs "sports", cs "performance", cs "training",
      cs "competition", cs "athletic", cs "professional sports",
      cs "olympic"]),
   ("families",
    [cs "family", cs "household", cs "parent", cs "parenting",
      cs "family health", cs "household health", cs "family planning"])]

/-- The `trending` subcategories (categorizer.py:212-237). -/
def taxTrending : List (String × List (List Char)) :=
  [("gut health",
    [cs "gut health", cs "microbiome", cs "digestive", cs "intestinal",
      cs "probiotic", cs "gut bacteria", cs "digestive health",
      cs "gut microbiota"]),
   ("mental health",
    [cs "mental health", cs "depression", cs "anxiety", cs "stress",
      cs "psychology", cs "psychiatric", cs "bipolar", cs "ptsd",
      cs "therapy", cs "counseling"]),
   ("hormones",
    [cs "hormone", cs "hormonal", cs "endocrine", cs "insulin", cs "cortisol",
      cs "estrogen", cs "testosterone", cs "growth hormone",
      cs "adrenaline"]),
   ("addiction",
    [cs "addiction", cs "substance abuse", cs "dependency", cs "alcoholism",
      cs "drug abuse", cs "smoking", cs "nicotine", cs "gambling addiction"]),
   ("sleep health",
    [cs "sleep health", cs "sleep", cs "insomnia", cs "sleep quality",
      cs "circadian rhythm", cs "sleep hygiene", cs "sleep pattern"]),
   ("sexual wellness",
    [cs "sexual wellness", cs "sexual health", cs "sexuality", cs "libido",
      cs "intimate health", cs "sexual dysfunction",
      cs "reproductive wellness"])]

/-- The `HealthCategorizer.frontend_mappings` (categorizer.py:44-238). -/
def taxonomy : List (String × List (String × List (List Char))) :=
  [("news", taxNews), ("diseases", taxDiseases), ("solutions", taxSolutions),
   ("food", taxFood), ("audience", taxAudience), ("trending", taxTrending)]

/-- The `HealthCategorizer._calculate_match_score` (categorizer.py:295-313):
+3.0 once per keyword whose full phrase occurs as a substring of `content`,
plus — unconditionally, with no `else` — `1.5 * matches / len(keyword_words)`
whenever at least one word of the phrase occurs among the words of
`content`. -/
def calcMatchScore (content : List Char) (keywords : List (List Char)) : ℚ :=
  let contentWords := splitWs content
  keywords.foldl
    (fun score kw =>
      let kwl := toLowerL kw
      let score1 := if hasSub kwl content then score + 3 else score
      let kwWords := splitWs kwl
      let m := (kwWords.filter (fun w => w ∈ contentWords)).length
      if 0 < m then score1 + (m : ℚ) / (kwWords.length : ℚ) * (3 / 2)
      else score1)
    0

/-- The score the claim describes: +3.0 for an exact phrase occurrence, and
the partial-word credit ONLY when the full phrase is not present.  (Spec-side
definition, for comparison with `calcMatchScore`.) -/
def claimMatchScore (content : List Char) (keywords : List (List Char)) : ℚ :=
  let contentWords := splitWs content
  keywords.foldl
    (fun score kw =>
      let kwl := toLowerL kw
      if hasSub kwl content then score + 3
      else
        let kwWords := splitWs kwl
        let m := (kwWords.filter (fun w => w ∈ contentWords)).length
        if 0 < m then score + (m : ℚ) / (kwWords.length : ℚ) * (3 / 2)
        else score)
    0

/-- The `best_matches` list of `categorize_article` (categorizer.py:258-265):
for every taxonomy pair in declaration order, its score, kept only when
positive. -/
def scorePairs (content : List Char) : List (ℚ × String × String) :=
  taxonomy.foldr
    (fun cat acc =>
      cat.2.foldr
        (fun sub acc2 =>
          let s := calcMatchScore content sub.2
          if 0 < s then (s, cat.1, sub.1) :: acc2 else acc2)
        [] ++ acc)
    []

/-- Insert into a list sorted by descending score, after all entries with an
equal or larger score (the element being inserted is earlier in the original
order, so this realises the stability of Python `list.sort`). -/
def insertDesc (x : ℚ × String × String) :
    List (ℚ × String × String) → List (ℚ × String × String)
  | [] => [x]
  | y :: ys => if y.1 ≤ x.1 then x :: y :: ys else y :: insertDesc x ys

/-- The `best_matches.sort(reverse=True, key=lambda x: x[0])`
(categorizer.py:268): a stable sort by descending score. -/
def sortDesc : List (ℚ × String × String) → List (ℚ × String × String)
  | [] => []
  | x :: xs => insertDesc x (sortDesc xs)

/-- The `HealthCategorizer._is_policy_article` (categorizer.py:315-323). -/
def isPolicyArticle (content : List Char) : Bool :=
  [cs "health policy", cs "medical policy", cs "healthcare policy",
    cs "government health", cs "health regulation", cs "fda approval",
    cs "health ministry", cs "health department", cs "government scheme",
    cs "public health policy", cs "health law",
    cs "medical law"].any (fun k => hasSub k content)

/-- The `HealthCategorizer._is_govt_scheme_article` (categorizer.py:325-332). -/
def isGovtSchemeArticle (content : List Char) : Bool :=
  [cs "ayushman bharat", cs "pradhan mantri", cs "cghs", cs "jan arogya",
    cs "government scheme", cs "health scheme",
    cs "health card"].any (fun k => hasSub k content)

/-- The `HealthCategorizer._is_international_article` (categorizer.py:334-341). -/
def isInternationalArticle (content : List Char) : Bool :=
  [cs "international", cs "global", cs "world health", cs "who", cs "pandemic",
    cs "worldwide", cs "united nations", cs "unicef",
    cs "global study"].any (fun k => hasSub k content)

/-- The `source_mappings` table of `_fallback_categorization`
(categorizer.py:348-355). -/
def sourceMappings : List (String × String × String) :=
  [("medical_research", "diseases", "general"),
   ("health_news", "news", "latest"),
   ("public_health", "news", "policy_and_regulation"),
   ("nutrition_science", "solutions", "nutrition"),
   ("environmental_health", "news", "international"),
   ("global_health", "news", "international")]

/-- The `HealthCategorizer._fallback_categorization` (categorizer.py:343-369).
`hint = none` models a falsy `source_category`. -/
def fallbackCategorization (content : List Char) (hint : Option String) :
    String × String :=
  let tableHit :=
    match hint with
    | some h => (sourceMappings.find? (fun m => m.1 = h)).map (·.2)
    | none => none
  match tableHit with
  | some r => r
  | none =>
    if [cs "study", cs "research", cs "trial"].any (fun w => hasSub w content) then
      ("diseases", "general")
    else if [cs "policy", cs "government",
        cs "regulation"].any (fun w => hasSub w content) then
      ("news", "policy_and_regulation")
    else if [cs "international", cs "global",
        cs "world"].any (fun w => hasSub w content) then
      ("news", "international")
    else ("news", "latest")

/-- The `subcategory.replace(' ', '_').replace('and', 'and')`
(categorizer.py:289); the second replace is the identity. -/
def dbFormat (s : String) : String :=
  String.mk (s.toList.map (fun c => if c = ' ' then '_' else c))

/-- The `HealthCategorizer.categorize_article` (categorizer.py:240-293). -/
def categorizeArticle (title summary : List Char) (hint : Option String) :
    String × String :=
  let t := toLowerL title
  let s := toLowerL summary
  let content := t ++ ' ' :: s
  match sortDesc (scorePairs content) with
  | [] => fallbackCategorization content hint
  | best :: _ =>
    if best.2.1 = "news" then
      if isPolicyArticle content then ("news", "policy_and_regulation")
      else if isGovtSchemeArticle content then ("news", "govt_schemes")
      else if isInternationalArticle content then ("news", "international")
      else ("news", "latest")
    else (best.2.1, dbFormat best.2.2)

/-- The selection rule of the (amended) claim: the first taxonomy pair, in
declaration order, whose score is maximal among all scored pairs. -/
def firstArgmax (ps : List (ℚ × String × String)) : Option (ℚ × String × String) :=
  ps.find? (fun p => ps.all (fun q => q.1 ≤ p.1))

/-!
Section: `MetabolicHealthFilter` (metabolic_filter.py:16-150)
-/

/-- The `MetabolicHealthFilter.metabolic_keywords`
(`_build_metabolic_keywords`, metabolic_filter.py:25-85), in insertion
order. -/
def metabolicKeywords : List (String × List (List Char)) :=
  [("metabolic_diseases",
    [cs "metabolic diseases", cs "metabolic syndrome", cs "obesity",
      cs "type 2 diabetes", cs "insulin resistance", cs "hypertension",
      cs "hyperlipidemia", cs "non-alcoholic fatty liver disease", cs "nafld",
      cs "cardiometabolic disorders", cs "mitochondrial dysfunction",
      cs "endocrine disruption", cs "diabetic", cs "diabetes",
      cs "blood sugar", cs "glucose metabolism", cs "lipid disorders",
      cs "fatty liver", cs "metabolic disorder", cs "syndrome x",
      cs "insulin sensitivity", cs "glucose intolerance"]),
   ("metabolism_general",
    [cs "basal metabolic rate", cs "bmr", cs "energy homeostasis",
      cs "anabolism", cs "catabolism", cs "glucose metabolism",
      cs "lipid metabolism", cs "protein metabolism", cs "nutrient absorption",
      cs "hormonal regulation", cs "gut microbiota", cs "metabolism",
      cs "metabolic rate", cs "energy expenditure", cs "caloric metabolism",
      cs "nutrient metabolism", cs "cellular metabolism",
      cs "enzymatic processes", cs "biochemical pathways",
      cs "energy production", cs "metabolic pathways"]),
   ("food_nutrition",
    [cs "macronutrients", cs "micronutrients", cs "nutrient deficiency",
      cs "overnutrition", cs "dietary patterns", cs "processed foods",
      cs "ultra-processed foods", cs "caloric intake", cs "glycemic index",
      cs "dietary fiber", cs "antioxidants", cs "probiotics", cs "prebiotics",
      cs "nutrition", cs "diet", cs "food", cs "eating", cs "meal",
      cs "supplement", cs "vitamin", cs "mineral", cs "healthy eating",
      cs "balanced diet", cs "nutrients", cs "nutritional value",
      cs "food quality"]),
   ("agriculture",
    [cs "agrochemicals", cs "pesticide residues", cs "gmos",
      cs "genetically modified organisms", cs "monoculture",
      cs "soil degradation", cs "crop diversity", cs "food security",
      cs "agroecology", cs "organic farming", cs "livestock emissions",
      cs "agro-industrial processing", cs "agricultural practices",
      cs "farming methods", cs "food production", cs "pesticides",
      cs "herbicides", cs "chemical fertilizers",
      cs "sustainable agriculture"]),
   ("sugar_sweeteners",
    [cs "added sugars", cs "high-fructose corn syrup",
      cs "refined carbohydrates", cs "artificial sweeteners",
      cs "sugar-sweetened beverages", cs "insulin spike",
      cs "fructose metabolism", cs "glycemic load", cs "sugar addiction",
      cs "hidden sugars", cs "sugar", cs "sweeteners", cs "fructose",
      cs "sucrose", cs "glucose", cs "corn syrup", cs "simple carbohydrates",
      cs "refined sugar", cs "natural sugars"]),
   ("air_pollution",
    [cs "particulate matter", cs "pm2.5", cs "oxidative stress",
      cs "inflammation", cs "endocrine-disrupting chemicals", cs "edcs",
      cs "metabolic dysregulation", cs "respiratory-metabolic link",
      cs "urban smog", cs "toxic air exposure", cs "air pollution",
      cs "environmental toxins", cs "air quality", cs "pollutants",
      cs "atmospheric pollution", cs "environmental health"]),
   ("water_pollution",
    [cs "heavy metals", cs "lead", cs "mercury", cs "nitrate contamination",
      cs "microplastics", cs "pesticide runoff", cs "endocrine disruptors",
      cs "toxic algal blooms", cs "drinking water safety",
      cs "bioaccumulation", cs "industrial effluents", cs "water pollution",
      cs "water contamination", cs "water quality", cs "toxic metals",
      cs "chemical pollutants", cs "water safety"])]

/-- The `MetabolicHealthFilter.semantic_patterns`
(`_build_semantic_patterns`, metabolic_filter.py:87-100): each regex has the
shape `\b(stem1|stem2|…)\w*\b`, so it is represented by its ordered stem
list. -/
def semanticPatterns : List (List (List Char)) :=
  [[cs "metabol", cs "diabet", cs "insulin", cs "glucose", cs "obesit",
      cs "weight", cs "nutrition", cs "diet"],
   [cs "cardiovascular", cs "heart", cs "blood pressure", cs "cholesterol"],
   [cs "hormone", cs "endocrin", cs "thyroid", cs "adrenal"],
   [cs "food", cs "eat", cs "meal", cs "calor", cs "nutrient"],
   [cs "exercise", cs "fitness", cs "physical activity", cs "lifestyle"],
   [cs "gut", cs "microbiom", cs "digestiv", cs "intestin"],
   [cs "inflammation", cs "oxidativ", cs "stress", cs "toxic"],
   [cs "liver", cs "hepatic", cs "fatty liver", cs "nafld"],
   [cs "sugar", cs "sweet", cs "fructos", cs "glycem"],
   [cs "pollut", cs "contamin", cs "pesticid", cs "chemical"]]

/-- The `re.findall(r'\b(stem1|…)\w*\b', text)` for a pattern of the above
shape: scan left to right; at a position preceded by a non-word character
(or the start), the first stem that matches is taken, `\w*` then consumes
the following word characters, and the captured group (the stem) is
returned; scanning resumes after the match.  `prevWord` records whether the
previous character was a word character.  The fuel starts at the text length
and each step consumes at least one character. -/
def findStemsGo (stems : List (List Char)) : Nat → Bool → List Char →
    List (List Char)
  | _, _, [] => []
  | 0, _, _ => []
  | Nat.succ f, prevWord, c :: t =>
    match
      (if prevWord then none
        else stems.find? (fun st => ¬st.isEmpty ∧ leadsWith st (c :: t))) with
    | some st =>
      let after := (c :: t).drop st.length
      st :: findStemsGo stems f true (after.dropWhile wordChar)
    | none => findStemsGo stems f (wordChar c) t

/-- All pattern hits of one semantic pattern in `text`. -/
def findStems (stems : List (List Char)) (text : List Char) :
    List (List Char) :=
  findStemsGo stems text.length false text

example :
    findStems [cs "metabol", cs "diet"] (cs "a metabolism diet, dieting!") =
      [cs "metabol", cs "diet", cs "diet"] := by decide
example : findStems [cs "who"] (cs "whole who x") = [cs "who", cs "who"] := by
  decide

/-- The keyword-matching loop of `contains_metabolic_content`
(metabolic_filter.py:115-126), over the flattened keyword dict: returns the
matched keywords (in order) and the position-weighted score. -/
def keywordScore (fullText titleLow summaryLow : List Char) :
    List (List Char) × ℚ :=
  (metabolicKeywords.map (·.2)).flatten.foldl
    (fun acc kw =>
      let kwl := toLowerL kw
      if hasSub kwl fullText then
        (acc.1 ++ [kw],
          acc.2 +
            (if hasSub kwl titleLow then 3
              else if hasSub kwl summaryLow then 2
              else 1))
      else acc)
    ([], 0)

/-- The semantic-pattern loop of `contains_metabolic_content`
(metabolic_filter.py:129-134): each group hit not already present (after
lower-casing) in `matched_keywords` is appended and scores 0.5. -/
def patternScore (fullText : List Char) (acc : List (List Char) × ℚ) :
    List (List Char) × ℚ :=
  semanticPatterns.foldl
    (fun acc stems =>
      (findStems stems fullText).foldl
        (fun acc m =>
          if m ∈ acc.1.map toLowerL then acc
          else (acc.1 ++ [m], acc.2 + 1 / 2))
        acc)
    acc

/-- The `full_text = f"{title} {summary} {content}".lower()`
(metabolic_filter.py:110). -/
def fullTextOf (title summary content : List Char) : List Char :=
  toLowerL (title ++ ' ' :: summary ++ ' ' :: content)

/-- The `matched_keywords` list and raw `total_score` accumulated by
`contains_metabolic_content` after both loops (metabolic_filter.py:112-134). -/
def relevanceParts (title summary content : List Char) :
    List (List Char) × ℚ :=
  let fullText := fullTextOf title summary content
  patternScore fullText
    (keywordScore fullText (toLowerL title) (toLowerL summary))

/-- The `MetabolicHealthFilter.contains_metabolic_content`
(metabolic_filter.py:102-150): returns
`(is_relevant, relevance_score, matched_keywords)`. -/
def containsMetabolicContent (title summary content : List Char) :
    Bool × ℚ × List (List Char) :=
  let r := relevanceParts title summary content
  let maxPossibleScore : ℚ :=
    (splitWs (fullTextOf title summary content)).length * (1 / 10)
  let relevanceScore := min (r.2 / max maxPossibleScore 1) 1
  let isRelevant :=
    decide (1 / 10 ≤ relevanceScore) && decide (1 ≤ r.1.length) &&
      decide ((1 : ℚ) ≤ r.2)
  (isRelevant, relevanceScore, r.1)

/-!
Section: `EnhancedHealthScraper.save_article` (scraper.py:1448-1575)

The save pipeline is embedded with its deterministic text helpers passed as
parameters: the claims proved about it hold for every choice of these
functions, and the concrete witnesses instantiate them.  The database is the
`articles` table created by `create_database` (scraper.py:840-875), whose
`url` column is `UNIQUE NOT NULL`; `INSERT OR IGNORE` (scraper.py:1542-1556)
inserts nothing when a row with the same `url` exists (`cursor.rowcount == 0`).
-/

/-- The article dict fields used by `save_article`. -/
structure Article where
  title : List Char
  summary : List Char
  url : List Char
  date : List Char
  author : List Char
deriving DecidableEq, Repr

/-- A persisted `articles` row.  The `categories` / `tags` / `authors` /
`subcategory` columns never influence control flow and are omitted. -/
structure Row where
  title : List Char
  summary : List Char
  url : List Char
  source : List Char
  date : List Char
deriving DecidableEq, Repr

/-- The scraper state touched by `save_article`: the database, the two
duplicate-fingerprint sets, and the run counters. -/
structure ScraperState where
  db : List Row
  urlHashes : List (List Char)
  titleHashes : List (List Char)
  articlesSaved : Nat
  duplicateCount : Nat
  errorCount : Nat
deriving Repr

/-- The deterministic helper functions of the save pipeline, for a fixed
`source_name`:
* `cleanTitle`: `clean_article_title(·, source_name)` (scraper.py:1355-1388);
* `decodeEntities`: `decode_html_entities` (scraper.py:1293-1353);
* `genSummary`: `_generate_contextual_summary(·, source_name)`
  (scraper.py:1577 ff.);
* `enhance`: `summary_enhancer.enhance_article_summary` — it only rewrites
  the summary; `none` models the call raising, after which the fallback
  path (scraper.py:1497-1529) runs;
* `validate`: `url_validator.validate_article_url` (url_validator.py:24-114)
  — its outcome depends on a network HEAD request, so one fixed outcome per
  article models one run. -/
structure SaveOracles where
  cleanTitle : List Char → List Char
  decodeEntities : List Char → List Char
  genSummary : List Char → List Char
  enhance : Article → Option (List Char)
  validate : Article → Bool

/-- The URL cleaning on scraper.py:1458:
`.replace('\\u0026', '&').replace('\\u0027', "'").replace('\\u0022', '"')`. -/
def cleanUrl (u : List Char) : List Char :=
  replaceAll (cs "\\u0022") (cs "\"")
    (replaceAll (cs "\\u0027") (cs "'") (replaceAll (cs "\\u0026") (cs "&") u))

/-- Lines 1451-1478: clean title/summary/url, then replace a summary that is
identical or too similar to the title (or missing) by a generated one. -/
def stage1 (o : SaveOracles) (a : Article) : Article :=
  let title1 := o.cleanTitle a.title
  let summ1 := o.decodeEntities a.summary
  let url1 := cleanUrl a.url
  let t := stripWs title1
  let s := stripWs summ1
  let summ2 :=
    if t ≠ [] ∧ s ≠ [] then
      let tc := stripWs (toLowerL t)
      let sc := stripWs (toLowerL s)
      if tc = sc ∨ ((tc.length : Int) - sc.length).natAbs < 10 ∨
          hasSub sc tc ∨ hasSub tc sc then
        o.genSummary t
      else summ1
    else if t ≠ [] ∧ s = [] then o.genSummary t
    else summ1
  { a with title := title1, summary := summ2, url := url1 }

/-- The `len(set(a) & set(b)) / len(set(a) | set(b))` over lower-cased words
(scraper.py:1503-1506). -/
def jaccardWords (t s : List Char) : ℚ :=
  let wt := (splitWs (toLowerL t)).dedup
  let ws := (splitWs (toLowerL s)).dedup
  let inter := (wt.filter (fun w => w ∈ ws)).length
  let union := (wt ++ ws.filter (fun w => w ∉ wt)).length
  (inter : ℚ) / (union : ℚ)

/-- The `except` fallback of the enhancement step (scraper.py:1497-1529). -/
def enhanceFallback (o : SaveOracles) (a : Article) : Article :=
  let a1 :=
    if a.summary ≠ [] ∧ a.title ≠ [] then
      if ¬(splitWs (toLowerL a.title)).dedup.isEmpty ∧
          ¬(splitWs (toLowerL a.summary)).dedup.isEmpty then
        if (8 : ℚ) / 10 < jaccardWords a.title a.summary then
          { a with summary := [] }
        else a
      else a
    else a
  let a2 :=
    if a1.summary = [] then { a1 with summary := o.genSummary a.title } else a1
  if a2.summary ≠ [] ∧ a2.title ≠ [] then
    let tc := stripWs (toLowerL a2.title)
    let sc := stripWs (toLowerL a2.summary)
    if tc = sc ∨ hasSub sc tc ∨ (sc.length : Int) - tc.length < 20 then
      { a2 with summary := o.genSummary a2.title }
    else a2
  else if a2.summary = [] then { a2 with summary := o.genSummary a2.title }
  else a2

/-- Lines 1493-1529: enhanced summary, or the fallback on an exception. -/
def stage2 (o : SaveOracles) (a : Article) : Article :=
  match o.enhance a with
  | some s => { a with summary := s }
  | none => enhanceFallback o a

/-- Lines 1531-1533: ensure a non-empty summary. -/
def stage3 (o : SaveOracles) (a : Article) : Article :=
  if a.summary = [] then { a with summary := o.genSummary a.title } else a

/-- The `EnhancedHealthScraper.save_article` (scraper.py:1448-1575) for a fixed
`source_name`.  `categorize_article` (scraper.py:1536) only fills columns
that are not modelled.  The `except` handler (scraper.py:1572-1575) is
unreachable here: every dict key it accesses exists in the model. -/
def saveArticle (o : SaveOracles) (sourceName : List Char) (st : ScraperState)
    (a : Article) : Bool × ScraperState :=
  let a1 := stage1 o a
  if isDuplicateFast st.urlHashes st.titleHashes a1.url a1.title then
    (false, { st with duplicateCount := st.duplicateCount + 1 })
  else if ¬o.validate a1 then (false, st)
  else
    let a2 := stage3 o (stage2 o a1)
    if st.db.any (fun r => r.url = a2.url) then
      (false, { st with duplicateCount := st.duplicateCount + 1 })
    else
      let caches := addToDuplicateCache st.urlHashes st.titleHashes a2.url a2.title
      (true,
        { st with
          db := st.db ++ [⟨a2.title, a2.summary, a2.url, sourceName, a2.date⟩],
          urlHashes := caches.1, titleHashes := caches.2,
          articlesSaved := st.articlesSaved + 1 })

/-!
Section: Theorems
-/

instance {ε α : Type} [DecidableEq ε] [DecidableEq α] :
    DecidableEq (Except ε α) := fun x y =>
  match x, y with
  | .error a, .error b =>
    if h : a = b then .isTrue (by rw [h])
    else .isFalse (fun hh => h (by injection hh))
  | .error _, .ok _ => .isFalse (fun hh => by injection hh)
  | .ok _, .error _ => .isFalse (fun hh => by injection hh)
  | .ok a, .ok b =>
    if h : a = b then .isTrue (by rw [h])
    else .isFalse (fun hh => h (by injection hh))

/-- Claim C1.  The claim states that `is_blacklisted(url)` is true iff an
entry with `retry_after` in the future exists, and that an expired entry is
lazily evicted so a second lookup returns false.  The code contradicts this:
on an expired entry, `_remove_from_blacklist` raises `AttributeError`
(`self.config_data` is never set by the second `FeedValidator.__init__`),
the `except Exception: pass` swallows it, and the function returns
`True, feed['reason']` with the entry still present — so the second lookup
is also true.  Entries in the format written by `add_to_blacklist`
(`isoformat() + 'Z'`, aware after parsing) even fail earlier: comparing them
with the naive `datetime.now()` raises `TypeError`, again swallowed.  At the
concrete expired entries below, the lookup returns true, the blacklist is
unchanged, and the repeated lookup still returns true. -/
theorem c1_lazy_eviction_broken :
    (isBlacklisted 200
        (mkValidator [⟨cs "https://feed.example/rss", cs "410 Gone",
          some (.naive 100)⟩]) (cs "https://feed.example/rss")).1.1 = true ∧
    (isBlacklisted 200
        (mkValidator [⟨cs "https://feed.example/rss", cs "410 Gone",
          some (.naive 100)⟩]) (cs "https://feed.example/rss")).2.blacklist =
      [⟨cs "https://feed.example/rss", cs "410 Gone", some (.naive 100)⟩] ∧
    (isBlacklisted 200
        ((isBlacklisted 200
            (mkValidator [⟨cs "https://feed.example/rss", cs "410 Gone",
              some (.naive 100)⟩]) (cs "https://feed.example/rss")).2)
        (cs "https://feed.example/rss")).1.1 = true ∧
    (isBlacklisted 200
        (mkValidator [⟨cs "https://feed.example/rss", cs "410 Gone",
          some (.utc 100)⟩]) (cs "https://feed.example/rss")).1.1 = true ∧
    (isBlacklisted 200
        (mkValidator [⟨cs "https://feed.example/rss", cs "410 Gone",
          some (.utc 100)⟩]) (cs "https://feed.example/rss")).2.blacklist =
      [⟨cs "https://feed.example/rss", cs "410 Gone", some (.utc 100)⟩] := by
  decide

/-- Claim C2.  The retry windows of `add_to_blacklist` are computed exactly
as claimed (30 days for 404/410, 12 hours for 429, 6 hours for 5xx and for
network/DNS/malformed failures, here in seconds), but the entry never
reaches the blacklist: `add_to_blacklist` calls `_remove_from_blacklist`
(scraper.py:442) before appending, which raises `AttributeError` on a
normally-constructed validator (no `config_data` attribute), so after an
HTTP 410 the source does NOT appear in the blacklist and `validate_feed`
propagates the exception (`except` on scraper.py:526 only catches
`RequestException` and `ValueError`). -/
theorem c2_blacklist_insert_crashes :
    retryDelta (some 404) = 30 * 86400 ∧ retryDelta (some 410) = 30 * 86400 ∧
    retryDelta (some 429) = 12 * 3600 ∧ retryDelta (some 500) = 6 * 3600 ∧
    retryDelta (some 503) = 6 * 3600 ∧ retryDelta (some 599) = 6 * 3600 ∧
    retryDelta none = 6 * 3600 ∧
    addToBlacklist 0 (mkValidator []) (cs "https://feed.example/rss")
        (cs "410 Gone - Feed permanently removed") (some 410) =
      Except.error PyErr.attributeError ∧
    addToBlacklist 0
        (mkValidator [⟨cs "https://other.example/rss", cs "x", none⟩])
        (cs "https://feed.example/rss")
        (cs "410 Gone - Feed permanently removed") (some 410) =
      Except.error PyErr.attributeError := by
  decide

/-- A scheduler state with one quick scrape already running. -/
def c3State : SchedState :=
  ⟨[(cs "quick_scrape_20260101_000000", ⟨cs "quick", 0⟩)]⟩

/-- Claim C3, counterexample.  Triggering a manual quick scrape while a
quick scrape is already active is NOT a no-op: `trigger_manual_scrape` and
`_run_quick_scrape_async` never consult `active_jobs`, a second job is
started, and the status afterwards reports two active quick runs, not
one. -/
theorem c3_counterexample :
    activeOfType
        (triggerManualScrape c3State (cs "quick") (cs "20260101_000100") 60).2
        (cs "quick") = 2 ∧
    ¬activeOfType
        (triggerManualScrape c3State (cs "quick") (cs "20260101_000100") 60).2
        (cs "quick") = 1 := by
  decide

/-- The `d[k] = v` on a key not present appends the binding. -/
theorem dictInsert_fresh (k : List Char) (v : Job) :
    ∀ l : List (List Char × Job), k ∉ l.map Prod.fst →
      dictInsert k v l = l ++ [(k, v)] := by
  intro l
  induction l with
  | nil => intro _; rfl
  | cons hd tl ih =>
    intro hk
    simp only [List.map_cons, List.mem_cons] at hk
    push_neg at hk
    simp only [dictInsert, List.cons_append]
    rw [if_neg (by simpa using Ne.symm hk.1), ih hk.2]

/-- Recording a job under a fresh id adds exactly one active run of its
type to the status count. -/
theorem activeOfType_insert_fresh (st : SchedState) (k : List Char) (j : Job)
    (hfresh : k ∉ st.activeJobs.map Prod.fst) :
    activeOfType ⟨dictInsert k j st.activeJobs⟩ j.jtype =
      activeOfType st j.jtype + 1 := by
  simp only [activeOfType]
  rw [dictInsert_fresh _ _ _ hfresh]
  simp [List.filter_append]

/-- Claim C3, amended: triggering a scrape of either kind — quick or full,
from the scheduler loop (`_run_quick_scrape_async`, `_run_full_scrape_async`)
or via the manual trigger (including its "comprehensive" alias for full) —
while any number of scrapes of that kind are running always starts one more
job: provided the new job id (timestamped to the second) is fresh, the
scheduler status afterwards reports one more active run of that kind than
before — there is no single-in-flight coalescing on either path. -/
theorem c3_trigger_always_starts_job (st : SchedState) (ts : List Char)
    (now : Int) :
    ((cs "quick_scrape_" ++ ts) ∉ st.activeJobs.map Prod.fst →
      activeOfType (runQuickScrapeAsync st ts now) (cs "quick") =
          activeOfType st (cs "quick") + 1 ∧
      activeOfType (triggerManualScrape st (cs "quick") ts now).2 (cs "quick") =
          activeOfType st (cs "quick") + 1) ∧
    ((cs "full_scrape_" ++ ts) ∉ st.activeJobs.map Prod.fst →
      activeOfType (runFullScrapeAsync st ts now) (cs "full") =
          activeOfType st (cs "full") + 1 ∧
      activeOfType (triggerManualScrape st (cs "full") ts now).2 (cs "full") =
          activeOfType st (cs "full") + 1 ∧
      activeOfType (triggerManualScrape st (cs "comprehensive") ts now).2
          (cs "full") = activeOfType st (cs "full") + 1) := by
  constructor
  · intro hfresh
    have h1 : activeOfType (runQuickScrapeAsync st ts now) (cs "quick") =
        activeOfType st (cs "quick") + 1 :=
      activeOfType_insert_fresh st _ ⟨cs "quick", now⟩ hfresh
    have hq : ¬(cs "quick" = cs "full" ∨ cs "quick" = cs "comprehensive") := by
      decide
    refine ⟨h1, ?_⟩
    simp only [triggerManualScrape, if_neg hq]
    exact h1
  · intro hfresh
    have h1 : activeOfType (runFullScrapeAsync st ts now) (cs "full") =
        activeOfType st (cs "full") + 1 :=
      activeOfType_insert_fresh st _ ⟨cs "full", now⟩ hfresh
    have hf : cs "full" = cs "full" ∨ cs "full" = cs "comprehensive" := by
      decide
    have hc : cs "comprehensive" = cs "full" ∨
        cs "comprehensive" = cs "comprehensive" := by decide
    refine ⟨h1, ?_, ?_⟩
    · simp only [triggerManualScrape, if_pos hf]
      exact h1
    · simp only [triggerManualScrape, if_pos hc]
      exact h1

/-- Witness for `c3_trigger_always_starts_job` at a concrete state with one
active quick job, exercising both the quick and the full conjunct. -/
theorem c3_trigger_always_starts_job_witness :
    ((cs "quick_scrape_" ++ cs "20260101_000100") ∉
        c3State.activeJobs.map Prod.fst ∧
      activeOfType
          (triggerManualScrape c3State (cs "quick") (cs "20260101_000100") 60).2
          (cs "quick") = activeOfType c3State (cs "quick") + 1) ∧
    ((cs "full_scrape_" ++ cs "20260101_000100") ∉
        c3State.activeJobs.map Prod.fst ∧
      activeOfType
          (triggerManualScrape c3State (cs "full") (cs "20260101_000100") 60).2
          (cs "full") = activeOfType c3State (cs "full") + 1) :=
  ⟨⟨by decide,
      ((c3_trigger_always_starts_job c3State (cs "20260101_000100") 60).1
        (by decide)).2⟩,
    ⟨by decide,
      ((c3_trigger_always_starts_job c3State (cs "20260101_000100") 60).2
        (by decide)).2.1⟩⟩

/-- Claim C4.  The claim states every `wait_if_needed` call returns in
finite time, also at the limit.  The code contradicts this: when the
trailing-window count is at the limit, it sleeps and then re-enters
`wait_if_needed` recursively while still holding the non-reentrant
`self.lock` (`with self.lock:` around scraper.py:275-291), so the call never
returns.  Concretely, with one request 10 s old and a limit of 1 the call
blocks forever; below the limit the call does return and the recorded
window count stays within the limit (second and third conjuncts). -/
theorem c4_rate_limiter_deadlocks :
    waitIfNeeded false [(-10 : ℚ)] 0 1 = .blocksForever ∧
    waitIfNeeded false [(-10 : ℚ)] 0 5 = .returns [(-10 : ℚ), 0] ∧
    (∀ (reqs : List ℚ) (now : ℚ) (limit : Nat) (r : List ℚ),
      waitIfNeeded false reqs now limit = .returns r → r.length ≤ limit) := by
  refine ⟨?_, ?_, ?_⟩
  · rw [waitIfNeeded]; norm_num; rw [waitIfNeeded]; rfl
  · rw [waitIfNeeded]; norm_num
  · intro reqs now limit r h
    rw [waitIfNeeded] at h
    simp only [Bool.false_eq_true, if_false] at h
    set reqs1 := reqs.filter (fun t => decide (now - 60 < t)) with hreqs1
    by_cases hl : limit ≤ reqs1.length
    · rw [if_pos hl] at h
      cases hh : reqs1.head? with
      | none => rw [hh] at h; exact absurd h (by simp)
      | some t0 =>
        rw [hh] at h
        dsimp only at h
        have ht0 : t0 ∈ reqs1 := List.mem_of_mem_head? (by rw [hh]; rfl)
        have hlt : now - 60 < t0 := by
          have := List.of_mem_filter ht0
          simpa using this
        have hw : (0 : ℚ) < 60 - (now - t0) := by linarith
        rw [if_pos hw] at h
        rw [waitIfNeeded] at h
        exact absurd h (by simp)
    · rw [if_neg hl] at h
      have : r = reqs1 ++ [now] := by
        have := h
        simpa using this.symm
      subst this
      simp only [List.length_append, List.length_singleton]
      omega

/-- Witness for the universally quantified bound in
`c4_rate_limiter_deadlocks`: at the concrete under-limit call, the returned
window has at most `limit` entries. -/
theorem c4_rate_limiter_deadlocks_witness :
    waitIfNeeded false [(-10 : ℚ)] 0 5 = .returns [(-10 : ℚ), 0] ∧
    ([(-10 : ℚ), 0] : List ℚ).length ≤ 5 :=
  ⟨c4_rate_limiter_deadlocks.2.1,
    c4_rate_limiter_deadlocks.2.2 [(-10 : ℚ)] 0 5 [(-10 : ℚ), 0]
      c4_rate_limiter_deadlocks.2.1⟩

/-- Claim C5, counterexample.  For title `"diabetes"` and empty summary the
combined content is `"diabetes "`; on the keyword list `["diabetes"]` of the
`diseases/diabetes` taxonomy entry, the code scores `3.0 + 1.5 = 4.5`: the
partial-word credit is added even though the full phrase is present, whereas
the claimed formula (partial credit only when the phrase is absent) gives
`3.0`. -/
theorem c5_counterexample :
    calcMatchScore (cs "diabetes ") [cs "diabetes"] = 9 / 2 ∧
    claimMatchScore (cs "diabetes ") [cs "diabetes"] = 3 ∧
    calcMatchScore (cs "diabetes ") [cs "diabetes"] ≠
      claimMatchScore (cs "diabetes ") [cs "diabetes"] := by
  decide

/-- Characters produced by `collapseWs` come from the input or are spaces. -/
theorem mem_collapseWsGo {c : Char} :
    ∀ (l : List Char) (b : Bool), c ∈ collapseWsGo b l → c = ' ' ∨ c ∈ l := by
  intro l
  induction l with
  | nil => intro b h; simp [collapseWsGo] at h
  | cons hd tl ih =>
    intro b h
    simp only [collapseWsGo] at h
    by_cases hw : wsChar hd
    · rw [if_pos hw] at h
      cases b with
      | true =>
        rcases ih true h with h1 | h1
        · exact Or.inl h1
        · exact Or.inr (List.mem_cons_of_mem _ h1)
      | false =>
        rcases List.mem_cons.mp h with h1 | h1
        · exact Or.inl h1
        · rcases ih true h1 with h2 | h2
          · exact Or.inl h2
          · exact Or.inr (List.mem_cons_of_mem _ h2)
    · rw [if_neg hw] at h
      rcases List.mem_cons.mp h with h1 | h1
      · exact Or.inr (h1 ▸ List.mem_cons_self _ _)
      · rcases ih false h1 with h2 | h2
        · exact Or.inl h2
        · exact Or.inr (List.mem_cons_of_mem _ h2)

/-- The `stripWs` only removes characters. -/
theorem mem_stripWs {c : Char} {l : List Char} (h : c ∈ stripWs l) : c ∈ l := by
  unfold stripWs at h
  rw [List.mem_reverse] at h
  have h1 := (List.dropWhile_sublist _).subset h
  rw [List.mem_reverse] at h1
  exact (List.dropWhile_sublist _).subset h1

/-- A prefix's characters occur in the string. -/
theorem leadsWith_mem :
    ∀ {p s : List Char}, leadsWith p s = true → ∀ c ∈ p, c ∈ s := by
  intro p
  induction p with
  | nil => intro s _ c hc; simp at hc
  | cons a as ih =>
    intro s h c hc
    cases s with
    | nil => simp [leadsWith] at h
    | cons b bs =>
      simp only [leadsWith, Bool.and_eq_true, decide_eq_true_eq] at h
      rcases List.mem_cons.mp hc with rfl | hc
      · exact h.1 ▸ List.mem_cons_self _ _
      · exact List.mem_cons_of_mem _ (ih h.2 c hc)

/-- After lower-casing, punctuation-to-space substitution and whitespace
collapsing, the string contains no colon. -/
theorem no_colon_normalize (title : List Char) :
    ':' ∉ stripWs (collapseWs ((stripWs (toLowerL title)).map
      (fun c => if wordChar c ∨ wsChar c then c else ' '))) := by
  intro hmem
  have h1 := mem_stripWs hmem
  rcases mem_collapseWsGo _ false h1 with h | h
  · exact absurd h (by decide)
  · rcases List.mem_map.mp h with ⟨d, _, hd⟩
    by_cases hw : wordChar d ∨ wsChar d
    · rw [if_pos hw] at hd
      subst hd
      exact absurd hw (by decide)
    · rw [if_neg hw] at hd
      exact absurd hd (by decide)

/-- Claim C7.  The claim states that `_normalize_title` removes leading
boilerplate markers such as `"breaking:"`, so a prefixed title hashes like
the bare one and the later copy is rejected by the fast-path check.  The
code contradicts this: punctuation (including every colon) is replaced by a
space BEFORE the marker check, and every entry of `prefixes_to_remove` ends
in a colon, so `startswith` never matches — the removal loop is dead code
(first conjunct: the function equals lower-casing + punctuation stripping +
whitespace collapsing alone).  Hence `"breaking: foo"` normalizes to
`"breaking foo"`, not `"foo"`, the fingerprints differ, and the fast-path
check does NOT flag the prefixed title as a duplicate of `"foo"` (last
conjunct). -/
theorem c7_marker_removal_dead :
    (∀ title, normalizeTitleScraper title =
      if title = [] then []
      else stripWs (collapseWs ((stripWs (toLowerL title)).map
        (fun c => if wordChar c ∨ wsChar c then c else ' ')))) ∧
    normalizeTitleScraper (cs "breaking: foo") = cs "breaking foo" ∧
    normalizeTitleScraper (cs "foo") = cs "foo" ∧
    normalizeTitleScraper (cs "breaking: foo") ≠ normalizeTitleScraper (cs "foo") ∧
    isDuplicateFast [] [normalizeTitleScraper (cs "foo")]
      (cs "https://b.example/2") (cs "breaking: foo") = false := by
  refine ⟨?_, by decide, by decide, by decide, by decide⟩
  intro title
  by_cases ht : title = []
  · simp [normalizeTitleScraper, ht]
  · rw [normalizeTitleScraper, if_neg ht, if_neg ht]
    have hnone : boilerHeadList.find?
        (fun p => leadsWith p (stripWs (collapseWs ((stripWs (toLowerL title)).map
          (fun c => if wordChar c ∨ wsChar c then c else ' '))))) = none := by
      rw [List.find?_eq_none]
      intro p hp hlw
      have hcolon : ':' ∈ p := by fin_cases hp <;> decide
      exact no_colon_normalize title (leadsWith_mem hlw ':' hcolon)
    simp only [hnone]

set_option maxRecDepth 100000 in
set_option maxHeartbeats 2000000 in
/-- Claim C6.  `are_duplicates` returns true exactly when the similarity of
the normalized titles is at least 0.85, or both URLs are non-empty and
identical, or both summaries are non-empty with similarity at least 0.90
(first conjunct, for all article pairs).  In particular a title pair with
similarity ratio 0.95 is flagged as duplicate and a pair with ratio 0.5 is
not (remaining conjuncts, at concrete titles realising those ratios, with
empty URLs and summaries). -/
theorem c6_are_duplicates_iff :
    (∀ a1 a2 : DArticle,
      areDuplicates a1 a2 = true ↔
        (85 / 100 : ℚ) ≤ calculateSimilarity (normalizeTitleDedup a1.title)
            (normalizeTitleDedup a2.title) ∨
          (a1.url ≠ [] ∧ a2.url ≠ [] ∧ a1.url = a2.url) ∨
          (a1.summary ≠ [] ∧ a2.summary ≠ [] ∧
            (9 / 10 : ℚ) ≤ calculateSimilarity a1.summary a2.summary)) ∧
    calculateSimilarity (cs "abcdefghijklmnopqrst")
        (cs "abcdefghijklmnopqrsu") = 19 / 20 ∧
    areDuplicates ⟨cs "abcdefghijklmnopqrst", [], []⟩
        ⟨cs "abcdefghijklmnopqrsu", [], []⟩ = true ∧
    calculateSimilarity (cs "abcdefgh") (cs "abcdwxyz") = 1 / 2 ∧
    areDuplicates ⟨cs "abcdefgh", [], []⟩ ⟨cs "abcdwxyz", [], []⟩ = false := by
  refine ⟨?_, by decide, by decide, by decide, by decide⟩
  intro a1 a2
  simp only [areDuplicates, similarityThreshold]
  split_ifs with h1 h2 h3 <;> simp_all [not_le]

/-- Claim C9.  `contains_metabolic_content` accepts exactly when the
normalized score is at least 0.1 AND at least one keyword (or pattern stem)
was matched AND the raw weighted score — weight 3 for a keyword found in the
title, 2 in the summary, 1 elsewhere in the body, 0.5 per new pattern stem,
see `keywordScore` / `patternScore` — is at least 1.0; and the normalized
score is the raw score divided by `max(0.1 * word count, 1)`, capped at 1. -/
theorem c9_relevance_acceptance (title summary content : List Char) :
    ((containsMetabolicContent title summary content).1 = true ↔
      (1 / 10 : ℚ) ≤ (containsMetabolicContent title summary content).2.1 ∧
        1 ≤ (relevanceParts title summary content).1.length ∧
        (1 : ℚ) ≤ (relevanceParts title summary content).2) ∧
    (containsMetabolicContent title summary content).2.1 =
      min ((relevanceParts title summary content).2 /
        max (((splitWs (fullTextOf title summary content)).length : ℚ) * (1 / 10))
          1) 1 ∧
    (containsMetabolicContent title summary content).2.2 =
      (relevanceParts title summary content).1 := by
  refine ⟨?_, rfl, rfl⟩
  simp only [containsMetabolicContent, Bool.and_eq_true, decide_eq_true_eq]
  tauto

/-- The head of an insertion is the larger of the inserted element and the
previous head (ties keep the inserted, i.e. earlier, element). -/
theorem insertDesc_head (x : ℚ × String × String) (s : List (ℚ × String × String)) :
    (insertDesc x s).head? =
      some (match s.head? with
        | none => x
        | some y => if y.1 ≤ x.1 then x else y) := by
  cases s with
  | nil => rfl
  | cons y ys =>
    simp only [insertDesc, List.head?_cons]
    split_ifs <;> simp

/-- The `find?` only depends on the predicate's values on the list. -/
theorem find?_congr {α : Type} (P Q : α → Bool) :
    ∀ l : List α, (∀ a ∈ l, P a = Q a) → l.find? P = l.find? Q := by
  intro l
  induction l with
  | nil => intro _; rfl
  | cons x xs ih =>
    intro h
    simp only [List.find?_cons]
    rw [h x (List.mem_cons_self x xs)]
    cases Q x with
    | true => rfl
    | false => exact ih (fun a ha => h a (List.mem_cons_of_mem _ ha))

/-- Every non-empty score list has a maximal element. -/
theorem exists_score_max :
    ∀ l : List (ℚ × String × String), l ≠ [] →
      ∃ p ∈ l, ∀ q ∈ l, q.1 ≤ p.1 := by
  intro l
  induction l with
  | nil => intro h; exact absurd rfl h
  | cons x xs ih =>
    intro _
    cases hxs : xs with
    | nil =>
      refine ⟨x, List.mem_cons_self _ _, ?_⟩
      intro q hq
      have hqx : q = x := by simpa using hq
      rw [hqx]
    | cons y ys =>
      obtain ⟨p, hp, hmax⟩ := ih (by simp [hxs])
      rw [← hxs] at *
      by_cases hle : p.1 ≤ x.1
      · refine ⟨x, List.mem_cons_self _ _, ?_⟩
        intro q hq
        rcases List.mem_cons.mp hq with rfl | hq
        · exact le_refl _
        · exact le_trans (hmax q hq) hle
      · refine ⟨p, List.mem_cons_of_mem _ hp, ?_⟩
        intro q hq
        rcases List.mem_cons.mp hq with rfl | hq
        · exact le_of_lt (lt_of_not_le hle)
        · exact hmax q hq

/-- The head of the stable descending sort is the first element attaining
the maximal score — Python's stable `sort(reverse=True, key=score)` followed
by `[0]` picks the first-declared highest-scoring entry. -/
theorem sortDesc_head :
    ∀ l : List (ℚ × String × String), (sortDesc l).head? = firstArgmax l := by
  intro l
  induction l with
  | nil => rfl
  | cons x xs ih =>
    rw [sortDesc, insertDesc_head, ih]
    cases hxs : xs with
    | nil => simp [firstArgmax]
    | cons y ys =>
      rw [← hxs]
      obtain ⟨p, hp, hmax⟩ := exists_score_max xs (by simp [hxs])
      have hfa : firstArgmax xs ≠ none := by
        unfold firstArgmax
        intro hnone
        rw [List.find?_eq_none] at hnone
        exact hnone p hp (by
          simp only [List.all_eq_true, decide_eq_true_eq]
          intro q hq
          exact hmax q hq)
      obtain ⟨m, hm⟩ := Option.ne_none_iff_exists'.mp hfa
      rw [hm]
      have hm2 : xs.find? (fun p => xs.all (fun q => decide (q.1 ≤ p.1))) =
          some m := hm
      have hmemm := List.mem_of_find?_eq_some hm2
      have hpm : (xs.all (fun q => decide (q.1 ≤ m.1))) = true := by
        have := List.find?_some hm2
        simpa using this
      have hmmax : ∀ q ∈ xs, q.1 ≤ m.1 := by
        intro q hq
        have := (List.all_eq_true.mp hpm) q hq
        simpa using this
      by_cases hle : m.1 ≤ x.1
      · simp only [if_pos hle]
        unfold firstArgmax
        rw [List.find?_cons_of_pos]
        simp only [List.all_eq_true, decide_eq_true_eq]
        intro q hq
        rcases List.mem_cons.mp hq with rfl | hq
        · exact le_refl _
        · exact le_trans (hmmax q hq) hle
      · simp only [if_neg hle]
        unfold firstArgmax
        have hx : ¬((x :: xs).all (fun q => decide (q.1 ≤ x.1))) = true := by
          intro hall
          have := List.all_eq_true.mp hall m (List.mem_cons_of_mem _ hmemm)
          exact hle (by simpa using this)
        have hcg :
            xs.find? (fun p => (x :: xs).all (fun q => decide (q.1 ≤ p.1))) =
              xs.find? (fun p => xs.all (fun q => decide (q.1 ≤ p.1))) := by
          apply find?_congr
          intro a _
          cases hPs : xs.all (fun q => decide (q.1 ≤ a.1)) with
          | true =>
            have hPa : ∀ q ∈ xs, q.1 ≤ a.1 := fun q hq => by
              simpa using List.all_eq_true.mp hPs q hq
            have hxa : x.1 ≤ a.1 :=
              le_trans (le_of_lt (lt_of_not_le hle)) (hPa m hmemm)
            rw [List.all_cons, hPs]
            simp [hxa]
          | false =>
            rw [List.all_cons, hPs]
            simp
        rw [@List.find?_cons_of_neg _
          (fun p => (x :: xs).all (fun q => decide (q.1 ≤ p.1))) x xs hx,
          hcg]
        exact hm2.symm

/-- The contribution of one keyword to `_calculate_match_score`: 3.0 when
the full phrase is a substring, plus — in every case — the partial word
credit `1.5 * matches / words` when at least one phrase word occurs. -/
def keywordContribution (content kw : List Char) : ℚ :=
  let kwl := toLowerL kw
  let kwWords := splitWs kwl
  let m := (kwWords.filter (fun w => w ∈ splitWs content)).length
  (if hasSub kwl content then 3 else 0) +
    (if 0 < m then (m : ℚ) / (kwWords.length : ℚ) * (3 / 2) else 0)

/-- The `_calculate_match_score` sums the per-keyword contributions. -/
theorem calcMatchScore_spec (content : List Char) (kws : List (List Char)) :
    calcMatchScore content kws = (kws.map (keywordContribution content)).sum := by
  have aux : ∀ (l : List (List Char)) (init : ℚ),
      l.foldl
        (fun score kw =>
          let kwl := toLowerL kw
          let score1 := if hasSub kwl content then score + 3 else score
          let kwWords := splitWs kwl
          let m := (kwWords.filter (fun w => w ∈ splitWs content)).length
          if 0 < m then score1 + (m : ℚ) / (kwWords.length : ℚ) * (3 / 2)
          else score1)
        init = init + (l.map (keywordContribution content)).sum := by
    intro l
    induction l with
    | nil => intro init; simp
    | cons kw t ih =>
      intro init
      rw [List.foldl_cons, ih, List.map_cons, List.sum_cons]
      dsimp only
      unfold keywordContribution
      dsimp only
      split_ifs <;> ring
  simp only [calcMatchScore]
  rw [aux kws 0, zero_add]

/-- Claim C5, amended.  The categorizer scores each taxonomy pair by summing
per-keyword contributions — +3.0 once per keyword whose phrase is a
substring of the case-folded title+summary, plus, in every case (also when
the full phrase IS present), +1.5×(matched words / phrase words) — and,
whenever some pair scores positively and the winner's category is not
`news`, returns the first-declared highest-scoring pair (the subcategory
with spaces replaced by underscores).  (When the winner is `news` a fixed
override chain chooses the subcategory, and with no positive score a
source-hint/keyword fallback applies: `categorizeArticle`.) -/
theorem c5_scoring_and_selection :
    (∀ content kws, calcMatchScore content kws =
      (kws.map (keywordContribution content)).sum) ∧
    (∀ (title summary : List Char) (hint : Option String)
        (p : ℚ × String × String),
      firstArgmax (scorePairs (toLowerL title ++ ' ' :: toLowerL summary)) =
          some p →
      p.2.1 ≠ "news" →
      categorizeArticle title summary hint = (p.2.1, dbFormat p.2.2)) := by
  refine ⟨calcMatchScore_spec, ?_⟩
  intro title summary hint p hfa hnews
  have hhead :
      (sortDesc (scorePairs (toLowerL title ++ ' ' :: toLowerL summary))).head? =
        some p := by
    rw [sortDesc_head]
    exact hfa
  simp only [categorizeArticle]
  cases hsd : sortDesc (scorePairs (toLowerL title ++ ' ' :: toLowerL summary)) with
  | nil => rw [hsd] at hhead; exact absurd hhead (by simp)
  | cons b rest =>
    rw [hsd] at hhead
    have hbp : b = p := by simpa using hhead
    subst hbp
    dsimp only
    rw [if_neg hnews]

set_option maxRecDepth 200000 in
set_option maxHeartbeats 4000000 in
/-- Witness for `c5_scoring_and_selection`: for title `"diabetes"` and empty
summary, the first-declared highest-scoring pair is
`diseases`/`diabetes` (score 25/4) and the categorizer returns it. -/
theorem c5_scoring_and_selection_witness :
    firstArgmax (scorePairs (toLowerL (cs "diabetes") ++ ' ' :: toLowerL [])) =
        some (25 / 4, "diseases", "diabetes") ∧
    (("diseases" : String) ≠ "news") ∧
    categorizeArticle (cs "diabetes") [] none = ("diseases", dbFormat "diabetes") :=
  ⟨by decide, by decide,
    c5_scoring_and_selection.2 (cs "diabetes") [] none
      (25 / 4, "diseases", "diabetes") (by decide) (by decide)⟩

/-- A common-prefix length never exceeds its cap. -/
theorem cappedPre_le_cap : ∀ (cap : Nat) (a b : List Char),
    cappedPre cap a b ≤ cap := by
  intro cap
  induction cap with
  | zero => intro a b; simp [cappedPre]
  | succ c ih =>
    intro a b
    cases a with
    | nil => simp [cappedPre]
    | cons x as =>
      cases b with
      | nil => simp [cappedPre]
      | cons y bs =>
        simp only [cappedPre]
        split_ifs
        · exact Nat.succ_le_succ (ih as bs)
        · exact Nat.zero_le _

/-- On equal lists with a sufficient cap, the common prefix is everything. -/
theorem cappedPre_self : ∀ (s : List Char) (cap : Nat), s.length ≤ cap →
    cappedPre cap s s = s.length := by
  intro s
  induction s with
  | nil => intro cap _; cases cap <;> simp [cappedPre]
  | cons x xs ih =>
    intro cap hcap
    cases cap with
    | zero => simp at hcap
    | succ c =>
      have h := ih c (Nat.le_of_succ_le_succ (by simpa using hcap))
      simp [cappedPre, h]

/-- A generic preservation principle for `List.foldl`. -/
theorem foldl_invariant {α β : Type} (f : α → β → α) (P : α → Prop) :
    ∀ (l : List β) (init : α), P init → (∀ a b, P a → b ∈ l → P (f a b)) →
      P (l.foldl f init) := by
  intro l
  induction l with
  | nil => intro init h _; exact h
  | cons x xs ih =>
    intro init h hstep
    exact ih (f init x) (hstep init x h (List.mem_cons_self _ _))
      (fun a b ha hb => hstep a b ha (List.mem_cons_of_mem _ hb))

/-- On a self-comparison, the maximal block `(0, 0, length)` is a fixed
point of the candidate step. -/
theorem lmStep_fixed (s : List Char) (i j : Nat) :
    lmStep s s s.length s.length i (0, 0, s.length) j = (0, 0, s.length) := by
  have hcand : lmCandidate s s s.length s.length i j ≤ s.length :=
    le_trans (cappedPre_le_cap _ _ _)
      (le_trans (min_le_left _ _) (Nat.sub_le _ _))
  unfold lmStep
  dsimp only
  split_ifs with h1 h2
  · exact absurd h2 (by simp only [not_lt]; exact hcand)
  · rfl
  · rfl

/-- The very first candidate of a self-comparison already finds the whole
string. -/
theorem lmStep_start (s : List Char) (hne : s ≠ []) :
    lmStep s s s.length s.length 0 (0, 0, 0) 0 = (0, 0, s.length) := by
  have h00 : headEq s s 0 0 = true := by
    cases s with
    | nil => exact absurd rfl hne
    | cons c t => simp [headEq]
  have hk00 : lmCandidate s s s.length s.length 0 0 = s.length := by
    unfold lmCandidate
    simp only [Nat.sub_zero, List.drop_zero, min_self]
    exact cappedPre_self s s.length (le_refl _)
  have hpos : 0 < s.length := by
    cases s with
    | nil => exact absurd rfl hne
    | cons c t => simp
  unfold lmStep
  rw [if_pos h00]
  simp only [hk00]
  rw [if_pos hpos]

/-- On a string matched against itself over its full range, the longest
matching block is the whole string. -/
theorem longestMatch_self (s : List Char) (hne : s ≠ []) :
    longestMatch s s 0 s.length 0 s.length = (0, 0, s.length) := by
  have hr : List.range' 0 s.length = 0 :: List.range' 1 (s.length - 1) := by
    cases hl : s.length with
    | zero => exact absurd (List.length_eq_zero.mp hl) hne
    | succ k => simp [List.range'_succ]
  simp only [longestMatch, Nat.sub_zero]
  rw [hr, List.foldl_cons, List.foldl_cons, lmStep_start s hne]
  have hinner : (List.range' 1 (s.length - 1)).foldl
      (lmStep s s s.length s.length 0) (0, 0, s.length) = (0, 0, s.length) :=
    foldl_invariant _ (fun b => b = (0, 0, s.length)) _ _ rfl
      (fun a j ha _ => ha ▸ lmStep_fixed s 0 j)
  rw [hinner]
  exact foldl_invariant _ (fun b => b = (0, 0, s.length)) _ _ rfl
    (fun acc i hacc _ =>
      foldl_invariant _ (fun b => b = (0, 0, s.length)) _ _ hacc
        (fun a j ha _ => ha ▸ lmStep_fixed s i j))

/-- The matched total over empty ranges is zero. -/
theorem smTotalGo_empty (a b : List Char) (fuel alo blo : Nat) :
    smTotalGo a b fuel alo alo blo blo = 0 := by
  cases fuel with
  | zero => rfl
  | succ f =>
    have hlm : longestMatch a b alo alo blo blo = (alo, blo, 0) := by
      unfold longestMatch
      simp
    simp [smTotalGo, hlm]

/-- A string fully matches itself. -/
theorem smTotal_self (s : List Char) (hne : s ≠ []) : smTotal s s = s.length := by
  have hlen : s.length ≠ 0 := by
    intro h
    exact hne (List.length_eq_zero.mp h)
  unfold smTotal
  simp only [smTotalGo, longestMatch_self s hne]
  rw [if_neg hlen]
  simp [smTotalGo_empty]

/-- The `ratio` of a string with itself is 1. -/
theorem smScore_self (s : List Char) : smScore s s = 1 := by
  unfold smScore
  by_cases h : s.length + s.length = 0
  · rw [if_pos h]
  · rw [if_neg h]
    have hne : s ≠ [] := by
      intro he
      subst he
      simp at h
    rw [smTotal_self s hne]
    have hq : ((s.length : ℚ) + s.length) ≠ 0 := by
      intro hc
      apply h
      have : ((s.length + s.length : Nat) : ℚ) = 0 := by push_cast; linarith
      exact_mod_cast this
    rw [div_eq_one_iff_eq hq]
    ring

/-- The `calculate_similarity` of a string with itself is 1. -/
theorem calculateSimilarity_self (t : List Char) : calculateSimilarity t t = 1 :=
  smScore_self _

/-- Articles with the same normalized title are duplicates. -/
theorem areDuplicates_same_title {a b : DArticle}
    (h : normalizeTitleDedup a.title = normalizeTitleDedup b.title) :
    areDuplicates a b = true := by
  unfold areDuplicates
  dsimp only
  rw [h, calculateSimilarity_self]
  rw [if_pos (by norm_num [similarityThreshold])]

/-- Articles with the same non-empty URL are duplicates. -/
theorem areDuplicates_same_url {a b : DArticle} (ha : a.url ≠ [])
    (hb : b.url ≠ []) (hu : a.url = b.url) : areDuplicates a b = true := by
  unfold areDuplicates
  dsimp only
  split_ifs with h1 h2 h3
  · rfl
  · rfl
  · rfl
  · exact absurd ⟨ha, hb, hu⟩ h2

/-- The fingerprint sets of the dedup loop mirror the kept articles. -/
def seenInv (st : DedupState) : Prop :=
  st.seenTitles = st.dedup.map (fun e => normalizeTitleDedup e.title) ∧
  st.seenUrls = (st.dedup.filter (fun e => decide (e.url ≠ []))).map
    (fun e => e.url)

/-- The conditions under which the loop keeps an article: fresh normalized
title, fresh URL (when non-empty), and no fuzzy duplicate among the articles
kept so far. -/
def stepKeeps (prev : List DArticle) (a : DArticle) : Prop :=
  normalizeTitleDedup a.title ∉
      prev.map (fun e => normalizeTitleDedup e.title) ∧
    ¬(a.url ≠ [] ∧ a.url ∈ (prev.filter (fun e => decide (e.url ≠ []))).map
      (fun e => e.url)) ∧
    ∀ e ∈ prev, areDuplicates a e = false

/-- Each article of the list passes the keep-conditions against the articles
before it (continuing a given prefix). -/
def cleanFrom (prev : List DArticle) : List DArticle → Prop
  | [] => True
  | a :: rest => stepKeeps prev a ∧ cleanFrom (prev ++ [a]) rest

/-- When the keep-conditions hold, `dedup_step` appends the article and its
fingerprints. -/
theorem dedupStep_keep (st : DedupState) (a : DArticle) (hinv : seenInv st)
    (hk : stepKeeps st.dedup a) :
    dedupStep st a =
      ⟨st.dedup ++ [a], st.seenTitles ++ [normalizeTitleDedup a.title],
        st.seenUrls ++ (if a.url ≠ [] then [a.url] else [])⟩ := by
  unfold dedupStep
  dsimp only
  rw [if_neg, if_neg]
  · intro hany
    obtain ⟨e, he, hae⟩ := List.any_eq_true.mp hany
    exact absurd hae (by rw [hk.2.2 e he]; simp)
  · push_neg
    constructor
    · rw [hinv.1]
      exact hk.1
    · intro hu
      intro hmem
      rw [hinv.2] at hmem
      exact hk.2.1 ⟨hu, hmem⟩

/-- When the keep-conditions hold, the fingerprint invariant is preserved. -/
theorem seenInv_keep (st : DedupState) (a : DArticle) (hinv : seenInv st)
    (hk : stepKeeps st.dedup a) : seenInv (dedupStep st a) := by
  rw [dedupStep_keep st a hinv hk]
  constructor
  · simp [hinv.1]
  · simp only [hinv.2, List.filter_append, List.map_append]
    by_cases hu : a.url ≠ []
    · rw [if_pos hu]
      simp [List.filter_cons, hu]
    · rw [if_neg hu]
      simp [List.filter_cons, hu]

/-- When the keep-conditions fail, the article is dropped, the state is
unchanged, and some kept article is a duplicate of it. -/
theorem dedupStep_drop (st : DedupState) (a : DArticle) (hinv : seenInv st)
    (hk : ¬stepKeeps st.dedup a) :
    dedupStep st a = st ∧ ∃ e ∈ st.dedup, areDuplicates a e = true := by
  unfold dedupStep
  dsimp only
  by_cases h1 : normalizeTitleDedup a.title ∈ st.seenTitles ∨
      (a.url ≠ [] ∧ a.url ∈ st.seenUrls)
  · rw [if_pos h1]
    refine ⟨rfl, ?_⟩
    rcases h1 with h1 | ⟨hu, h1⟩
    · rw [hinv.1] at h1
      obtain ⟨e, he, heq⟩ := List.mem_map.mp h1
      exact ⟨e, he, areDuplicates_same_title heq.symm⟩
    · rw [hinv.2] at h1
      obtain ⟨e, he, heq⟩ := List.mem_map.mp h1
      have hef := List.mem_filter.mp he
      exact ⟨e, hef.1,
        areDuplicates_same_url hu (by simpa using hef.2) heq.symm⟩
  · rw [if_neg h1]
    by_cases h2 : st.dedup.any (fun e => areDuplicates a e) = true
    · rw [if_pos h2]
      exact ⟨rfl, List.any_eq_true.mp h2⟩
    · exfalso
      apply hk
      push_neg at h1
      refine ⟨?_, ?_, ?_⟩
      · rw [← hinv.1]
        exact h1.1
      · intro hc
        rw [← hinv.2] at hc
        exact absurd hc.2 (h1.2 hc.1)
      · intro e he
        cases hae : areDuplicates a e with
        | false => rfl
        | true => exact absurd (List.any_eq_true.mpr ⟨e, he, hae⟩) h2

/-- The characterization of one full dedup pass: the kept articles extend
the previous state by a sublist of the input that satisfies the
keep-conditions step by step, preserving the fingerprint invariant, and
every input article is either kept or a duplicate of some kept article. -/
theorem dedup_run :
    ∀ (input : List DArticle) (st : DedupState), seenInv st →
      ∃ new : List DArticle,
        (input.foldl dedupStep st).dedup = st.dedup ++ new ∧
        new.Sublist input ∧
        seenInv (input.foldl dedupStep st) ∧
        cleanFrom st.dedup new ∧
        ∀ a ∈ input, a ∈ new ∨
          ∃ e ∈ (input.foldl dedupStep st).dedup, areDuplicates a e = true := by
  intro input
  induction input with
  | nil =>
    intro st hinv
    exact ⟨[], by simp, List.nil_sublist _, hinv, trivial, by simp⟩
  | cons a rest ih =>
    intro st hinv
    by_cases hk : stepKeeps st.dedup a
    · have hstep := dedupStep_keep st a hinv hk
      have hdd : (dedupStep st a).dedup = st.dedup ++ [a] := by rw [hstep]
      obtain ⟨new, hdedup, hsub, hinvf, hclean, hcov⟩ :=
        ih (dedupStep st a) (seenInv_keep st a hinv hk)
      refine ⟨a :: new, ?_, List.Sublist.cons₂ a hsub, ?_, ⟨hk, ?_⟩, ?_⟩
      · rw [List.foldl_cons, hdedup, hdd, List.append_assoc]
        rfl
      · rw [List.foldl_cons]
        exact hinvf
      · rw [← hdd]
        exact hclean
      · intro b hb
        rcases List.mem_cons.mp hb with rfl | hb
        · exact Or.inl (List.mem_cons_self _ _)
        · rcases hcov b hb with h | ⟨e, he, hd⟩
          · exact Or.inl (List.mem_cons_of_mem _ h)
          · exact Or.inr ⟨e, by rw [List.foldl_cons]; exact he, hd⟩
    · obtain ⟨hstep, hdup⟩ := dedupStep_drop st a hinv hk
      obtain ⟨new, hdedup, hsub, hinvf, hclean, hcov⟩ :=
        ih (dedupStep st a) (by rw [hstep]; exact hinv)
      refine ⟨new, ?_, List.Sublist.cons a hsub, ?_, ?_, ?_⟩
      · rw [List.foldl_cons, hdedup, hstep]
      · rw [List.foldl_cons]
        exact hinvf
      · rw [hstep] at hclean
        exact hclean
      · intro b hb
        rcases List.mem_cons.mp hb with rfl | hb
        · obtain ⟨e, he, hd⟩ := hdup
          refine Or.inr ⟨e, ?_, hd⟩
          rw [List.foldl_cons, hdedup, hstep]
          exact List.mem_append_left _ he
        · rcases hcov b hb with h | ⟨e, he, hd⟩
          · exact Or.inl h
          · exact Or.inr ⟨e, by rw [List.foldl_cons]; exact he, hd⟩

/-- Articles satisfying the keep-conditions are not duplicates of the
prefix. -/
theorem cleanFrom_false_on_prev :
    ∀ (l prev : List DArticle), cleanFrom prev l →
      ∀ y ∈ l, ∀ e ∈ prev, areDuplicates y e = false := by
  intro l
  induction l with
  | nil => intro prev _ y hy; simp at hy
  | cons a rest ih =>
    intro prev hc y hy e he
    rcases List.mem_cons.mp hy with rfl | hy
    · exact hc.1.2.2 e he
    · exact ih (prev ++ [a]) hc.2 y hy e (List.mem_append_left _ he)

/-- The keep-conditions imply the output is pairwise duplicate-free (each
later article against each earlier one). -/
theorem cleanFrom_pairwise :
    ∀ (l prev : List DArticle), cleanFrom prev l →
      List.Pairwise (fun x y => areDuplicates y x = false) l := by
  intro l
  induction l with
  | nil => intro prev _; exact List.Pairwise.nil
  | cons a rest ih =>
    intro prev hc
    refine List.Pairwise.cons ?_ (ih (prev ++ [a]) hc.2)
    intro y hy
    exact cleanFrom_false_on_prev rest (prev ++ [a]) hc.2 y hy a
      (List.mem_append_right _ (List.mem_cons_self _ _))

/-- A list that passes the keep-conditions step by step is returned
unchanged by a dedup pass. -/
theorem dedup_of_clean :
    ∀ (l : List DArticle) (st : DedupState), seenInv st →
      cleanFrom st.dedup l → (l.foldl dedupStep st).dedup = st.dedup ++ l := by
  intro l
  induction l with
  | nil => intro st _ _; simp
  | cons a rest ih =>
    intro st hinv hc
    have hstep := dedupStep_keep st a hinv hc.1
    have hdd : (dedupStep st a).dedup = st.dedup ++ [a] := by rw [hstep]
    rw [List.foldl_cons,
      ih (dedupStep st a) (seenInv_keep st a hinv hc.1) (by rw [hdd]; exact hc.2),
      hdd, List.append_assoc]
    rfl

set_option maxRecDepth 100000 in
set_option maxHeartbeats 1000000 in
/-- Claim C10, counterexample.  The claim reads symmetrically — no two
articles of the output satisfy `are_duplicates` — but the loop only checks
`are_duplicates(candidate, kept)` in that argument order, and the
`SequenceMatcher` ratio is order-dependent: with titles "defghbcab" then
"defghabcb" the checked direction computes ratio 7/9 < 0.85 so both
articles are kept, yet `are_duplicates` of the first output article
against the second computes ratio 8/9 ≥ 0.85 and holds. -/
theorem c10_counterexample :
    deduplicateArticles
        [⟨cs "defghbcab", [], []⟩, ⟨cs "defghabcb", [], []⟩] =
      [⟨cs "defghbcab", [], []⟩, ⟨cs "defghabcb", [], []⟩] ∧
    areDuplicates ⟨cs "defghbcab", [], []⟩ ⟨cs "defghabcb", [], []⟩ = true ∧
    areDuplicates ⟨cs "defghabcb", [], []⟩ ⟨cs "defghbcab", [], []⟩ = false := by
  decide

/-- Claim C10, amended.  `deduplicate_articles` returns a sublist of its
input; no output article is an `are_duplicates` match of any EARLIER output
article — the direction the loop actually checks (the reverse direction can
still hold, since the similarity ratio is order-dependent); for every
position in the input, the articles retained from the input before that
position form a prefix of the output, and the article there is either kept
or an `are_duplicates` match of one of those earlier retained articles; and
running the function on its own output returns it unchanged. -/
theorem c10_dedup_directional (l : List DArticle) :
    List.Sublist (deduplicateArticles l) l ∧
    List.Pairwise (fun x y => areDuplicates y x = false)
      (deduplicateArticles l) ∧
    (∀ (l1 : List DArticle) (a : DArticle) (l2 : List DArticle),
      l = l1 ++ a :: l2 →
      (∃ t, deduplicateArticles l1 ++ t = deduplicateArticles l) ∧
      (a ∈ deduplicateArticles l ∨
        ∃ e ∈ deduplicateArticles l1, areDuplicates a e = true)) ∧
    deduplicateArticles (deduplicateArticles l) = deduplicateArticles l := by
  have hinv0 : seenInv ⟨[], [], []⟩ := ⟨rfl, rfl⟩
  obtain ⟨new, hdedup, hsub, hinvf, hclean, hcov⟩ := dedup_run l ⟨[], [], []⟩ hinv0
  have hout : deduplicateArticles l = new := by
    unfold deduplicateArticles
    rw [hdedup]
    rfl
  refine ⟨?_, ?_, ?_, ?_⟩
  · rw [hout]
    exact hsub
  · rw [hout]
    exact cleanFrom_pairwise new [] hclean
  · intro l1 a l2 hl
    subst hl
    obtain ⟨new1, hd1, hsub1, hinv1, hclean1, hcov1⟩ :=
      dedup_run l1 ⟨[], [], []⟩ hinv0
    have hpre1 : deduplicateArticles l1 =
        (l1.foldl dedupStep ⟨[], [], []⟩).dedup := rfl
    have hout2 : deduplicateArticles (l1 ++ a :: l2) =
        (l2.foldl dedupStep
          (dedupStep (l1.foldl dedupStep ⟨[], [], []⟩) a)).dedup := by
      unfold deduplicateArticles
      rw [List.foldl_append, List.foldl_cons]
    by_cases hk : stepKeeps (l1.foldl dedupStep ⟨[], [], []⟩).dedup a
    · have hstep := dedupStep_keep _ a hinv1 hk
      have hdd : (dedupStep (l1.foldl dedupStep ⟨[], [], []⟩) a).dedup =
          (l1.foldl dedupStep ⟨[], [], []⟩).dedup ++ [a] := by rw [hstep]
      obtain ⟨new2, hd2, hsub2, hinv2, hclean2, hcov2⟩ :=
        dedup_run l2 (dedupStep (l1.foldl dedupStep ⟨[], [], []⟩) a)
          (seenInv_keep _ a hinv1 hk)
      constructor
      · refine ⟨[a] ++ new2, ?_⟩
        rw [hpre1, hout2, hd2, hdd, List.append_assoc]
      · left
        rw [hout2, hd2, hdd]
        exact List.mem_append_left _
          (List.mem_append_right _ (List.mem_cons_self _ _))
    · obtain ⟨hstep, e, he, hd⟩ := dedupStep_drop _ a hinv1 hk
      obtain ⟨new2, hd2, hsub2, hinv2, hclean2, hcov2⟩ :=
        dedup_run l2 (dedupStep (l1.foldl dedupStep ⟨[], [], []⟩) a)
          (by rw [hstep]; exact hinv1)
      constructor
      · refine ⟨new2, ?_⟩
        rw [hpre1, hout2, hd2, hstep]
      · right
        exact ⟨e, by rw [hpre1]; exact he, hd⟩
  · rw [hout]
    unfold deduplicateArticles
    rw [dedup_of_clean new ⟨[], [], []⟩ hinv0 hclean]
    rfl

/-- Witness for `c10_dedup_directional` at a concrete two-article list whose
second member repeats the normalized title of the first, decomposed at the
second position: the articles retained from the first position form a prefix
of the output, and the second article is either kept or a duplicate of one
of them. -/
theorem c10_dedup_directional_witness :
    ([⟨cs "A Story!", cs "http://a", []⟩, ⟨cs "a story", cs "http://b", []⟩] :
        List DArticle) =
      [⟨cs "A Story!", cs "http://a", []⟩] ++
        (⟨cs "a story", cs "http://b", []⟩ : DArticle) :: [] ∧
    ((∃ t, deduplicateArticles [⟨cs "A Story!", cs "http://a", []⟩] ++ t =
        deduplicateArticles
          [⟨cs "A Story!", cs "http://a", []⟩,
            ⟨cs "a story", cs "http://b", []⟩]) ∧
      ((⟨cs "a story", cs "http://b", []⟩ : DArticle) ∈
          deduplicateArticles
            [⟨cs "A Story!", cs "http://a", []⟩,
              ⟨cs "a story", cs "http://b", []⟩] ∨
        ∃ e ∈ deduplicateArticles [⟨cs "A Story!", cs "http://a", []⟩],
          areDuplicates ⟨cs "a story", cs "http://b", []⟩ e = true)) :=
  ⟨rfl,
    (c10_dedup_directional
        [⟨cs "A Story!", cs "http://a", []⟩,
          ⟨cs "a story", cs "http://b", []⟩]).2.2.1
      [⟨cs "A Story!", cs "http://a", []⟩] ⟨cs "a story", cs "http://b", []⟩ []
      rfl⟩

/-- The fallback summary path only rewrites the summary. -/
theorem enhanceFallback_url (o : SaveOracles) (a : Article) :
    (enhanceFallback o a).url = a.url := by
  unfold enhanceFallback
  dsimp only
  split_ifs <;> rfl

/-- The enhancement stage only rewrites the summary. -/
theorem stage2_url (o : SaveOracles) (a : Article) : (stage2 o a).url = a.url := by
  unfold stage2
  cases o.enhance a with
  | some s => rfl
  | none => exact enhanceFallback_url o a

/-- The ensure-summary stage only rewrites the summary. -/
theorem stage3_url (o : SaveOracles) (a : Article) : (stage3 o a).url = a.url := by
  unfold stage3
  split_ifs <;> rfl

/-- The summary-enhancement stages (scraper.py:1493-1533) only rewrite the
summary; the URL survives unchanged. -/
theorem stages_preserve_url (o : SaveOracles) (a1 : Article) :
    (stage3 o (stage2 o a1)).url = a1.url := by
  rw [stage3_url, stage2_url]

/-- Claim C8.  Saving the same article twice leaves exactly one row:
(1) after a successful save, an immediate re-save of the same article is
rejected by the fast duplicate check (its URL fingerprint was cached),
returns false, and only increments `duplicate_count`;
(2) whenever the article's cleaned URL is already in the URL-fingerprint
cache (e.g. seeded from the store at startup), the save returns false with
`duplicate_count` incremented and no other change;
(3) whenever a row with the same URL is already persisted and the URL
validator accepts the article, the save returns false, leaves the database
unchanged, and increments `duplicate_count` — `INSERT OR IGNORE` against the
`UNIQUE url` column inserts nothing (`rowcount == 0`), which is counted as a
duplicate, not raised as an error;
(4) `save_article` preserves global uniqueness of the `url` column.
All parts hold for every choice of the deterministic helper functions. -/
theorem c8_save_article_idempotent :
    (∀ (o : SaveOracles) (src : List Char) (st st1 : ScraperState) (a : Article),
      saveArticle o src st a = (true, st1) →
      saveArticle o src st1 a =
        (false, { st1 with duplicateCount := st1.duplicateCount + 1 })) ∧
    (∀ (o : SaveOracles) (src : List Char) (st : ScraperState) (a : Article),
      (stage1 o a).url ∈ st.urlHashes →
      saveArticle o src st a =
        (false, { st with duplicateCount := st.duplicateCount + 1 })) ∧
    (∀ (o : SaveOracles) (src : List Char) (st : ScraperState) (a : Article),
      (stage1 o a).url ∈ st.db.map (fun r => r.url) →
      o.validate (stage1 o a) = true →
      (saveArticle o src st a).1 = false ∧
      (saveArticle o src st a).2.db = st.db ∧
      (saveArticle o src st a).2.duplicateCount = st.duplicateCount + 1 ∧
      (saveArticle o src st a).2.errorCount = st.errorCount) ∧
    (∀ (o : SaveOracles) (src : List Char) (st : ScraperState) (a : Article),
      (st.db.map (fun r => r.url)).Nodup →
      ((saveArticle o src st a).2.db.map (fun r => r.url)).Nodup) := by
  have fastdup : ∀ (o : SaveOracles) (src : List Char) (st : ScraperState)
      (a : Article), (stage1 o a).url ∈ st.urlHashes →
      saveArticle o src st a =
        (false, { st with duplicateCount := st.duplicateCount + 1 }) := by
    intro o src st a hmem
    simp only [saveArticle]
    rw [if_pos (by simp [isDuplicateFast, hmem])]
  refine ⟨?_, fastdup, ?_, ?_⟩
  · intro o src st st1 a h
    simp only [saveArticle] at h
    split_ifs at h with h1 h2 h3
    all_goals try exact absurd (congrArg Prod.fst h) Bool.false_ne_true
    have hhash : _ = st1.urlHashes :=
      congrArg (fun p : Bool × ScraperState => p.2.urlHashes) h
    apply fastdup
    rw [← hhash]
    simp only [addToDuplicateCache]
    rw [stages_preserve_url]
    exact List.mem_append_right _ (List.mem_cons_self _ _)
  · intro o src st a hmem hv
    have hany : st.db.any
        (fun r => decide (r.url = (stage3 o (stage2 o (stage1 o a))).url)) = true := by
      rw [List.any_eq_true]
      obtain ⟨r, hr, hru⟩ := List.mem_map.mp hmem
      exact ⟨r, hr, by rw [stages_preserve_url]; simpa using hru⟩
    simp only [saveArticle]
    split_ifs with h1
    all_goals exact ⟨rfl, rfl, rfl, rfl⟩
  · intro o src st a hnd
    simp only [saveArticle]
    split_ifs with h1 h2 h3
    all_goals try exact hnd
    simp only [List.map_append, List.map_cons, List.map_nil]
    rw [List.nodup_append]
    refine ⟨hnd, List.nodup_singleton _, ?_⟩
    intro u hu hu2
    have hueq : u = (stage3 o (stage2 o (stage1 o a))).url := by simpa using hu2
    subst hueq
    obtain ⟨r, hr, hru⟩ := List.mem_map.mp hu
    exact h3 (List.any_eq_true.mpr ⟨r, hr, by simpa using hru⟩)

/-- Concrete helper functions for the save pipeline witness. -/
def c8Oracles : SaveOracles :=
  ⟨fun t => t, fun s => s, fun t => cs "Summary for " ++ t,
    fun _ => some (cs "An enhanced summary."), fun _ => true⟩

/-- A concrete article for the save pipeline witness. -/
def c8Article : Article :=
  ⟨cs "Example Health Article", cs "A detailed summary of the article.",
    cs "https://news.example/a1", cs "2026-01-01", cs "An Author"⟩

/-- A fresh scraper state. -/
def c8State : ScraperState := ⟨[], [], [], 0, 0, 0⟩

/-- Witness for `c8_save_article_idempotent`: a concrete article saves
successfully once and the immediate second save is rejected as a
duplicate. -/
theorem c8_save_article_idempotent_witness :
    saveArticle c8Oracles (cs "SourceA") c8State c8Article =
      (true, (saveArticle c8Oracles (cs "SourceA") c8State c8Article).2) ∧
    saveArticle c8Oracles (cs "SourceA")
        (saveArticle c8Oracles (cs "SourceA") c8State c8Article).2 c8Article =
      (false,
        { (saveArticle c8Oracles (cs "SourceA") c8State c8Article).2 with
          duplicateCount :=
            (saveArticle c8Oracles
              (cs "SourceA") c8State c8Article).2.duplicateCount + 1 }) := by
  have h1 : saveArticle c8Oracles (cs "SourceA") c8State c8Article =
      (true, (saveArticle c8Oracles (cs "SourceA") c8State c8Article).2) := by
    have hfst : (saveArticle c8Oracles (cs "SourceA") c8State c8Article).1 =
        true := by decide
    exact Prod.ext hfst rfl
  exact ⟨h1,
    c8_save_article_idempotent.1 c8Oracles (cs "SourceA") c8State _ c8Article h1⟩

end Metabolical
